import Mathlib

/-!
Shallow embedding of the `automol.reac` scan / TS-z-matrix core
(`src/automol/reac/_scan.py`, `src/automol/reac/_util.py`,
`src/automol/reac/_zmat.py`) and proofs about the specification claims.

Conventions of the embedding:
* Machine floats are modelled by exact rationals; `numpy.linspace` is the
  evenly spaced rational grid with both endpoints included.
* Python exceptions are modelled by `Except Err`; the dispatch-table miss
  (`KeyError` on the per-class function dictionaries) is
  `Err.unsupportedReactionClass`, the bond-key arity unpacking failures are
  `Err.malformedReactionGraph`, arithmetic on a missing bond length
  (`None + float`) is `Err.typeError`.
* Collaborators that are not part of the three embedded source files
  (`automol.graph`, `automol.zmat`, `automol.geom`, `phydat`) are modelled
  from the spec, either as fields of a `Collab` record of abstract
  operations or as explicit definitions marked "Modelled from the spec".
-/

namespace Autochem

/-- An atom key is a natural number; a bond key is an unordered pair of atom
keys, modelled as a duplicate-free list in the frozenset's iteration order
(Python frozensets expose an arbitrary but fixed iteration order). -/
abbrev BondKey := List ℕ

/-- Set intersection on iteration-order lists (order of the left operand). -/
def linter (x y : List ℕ) : List ℕ := x.filter (fun a => y.contains a)

/-- Set difference on iteration-order lists. -/
def ldiff (x y : List ℕ) : List ℕ := x.filter (fun a => !(y.contains a))

/-- Insert an atom key into a sorted list of atom keys. -/
def insertNat (a : ℕ) : List ℕ → List ℕ
  | [] => [a]
  | b :: t => if a ≤ b then a :: b :: t else b :: insertNat a t

/-- Sorted element tuple of a set (Python `sorted(s)`). -/
def lsort : List ℕ → List ℕ
  | [] => []
  | a :: t => insertNat a (lsort t)

/-- The TS graph, reduced to what the embedded code reads from it: the set of
forming bond keys and the set of breaking bond keys (Python sets are modelled
as lists in the set's iteration order). -/
structure TSGraph where
  frm : List BondKey
  brk : List BondKey
deriving DecidableEq

/-- A reaction object: class tag (a string, so that unsupported tags such as
"PHOTOLYSIS" are representable), forward TS graph and reactant key blocks. -/
structure Reaction where
  class_ : String
  forward_ts_graph : TSGraph
  reactants_keys : List (List ℕ)
deriving DecidableEq

/-- A z-matrix, reduced to what the embedded code reads from it:
`automol.zmat.symbols` (row index to element symbol),
`automol.zmat.coordinates` (coordinate name to the defining atom-key tuples)
and the current coordinate values (read by `automol.zmat.constraint_dct`). -/
structure ZMat where
  symbols : List String
  coords : List (String × List (List ℕ))
  vals : List (String × ℚ)
deriving DecidableEq

/-- Error outcomes of the embedded code. -/
inductive Err where
  | unsupportedReactionClass
  | malformedReactionGraph
  | typeError
  | valueError
  | nameError
  | assertionError
  | keyError
deriving DecidableEq

/-- Modelled from the spec: the static element-pair bond-length reference
table (`phydat.bnd.LEN_DCT`, not under `src/`), kept as an explicit
parameter: a list of canonical (sorted) element-symbol pairs with their
reference lengths in the working length unit. -/
abbrev LenDct := List ((String × String) × ℚ)

/-- Modelled from the spec: the angstrom-to-bohr conversion constant
`phydat.phycon.ANG2BOHR` (not under `src/`). -/
def ANG2BOHR : ℚ := 18897259886 / 10000000000

/-- Exact-rational model of `numpy.linspace(a, b, n)` with both endpoints
included: `n` points `a + (b - a) * i / (n - 1)`; one point gives `[a]`. -/
def linspace (a b : ℚ) (n : ℕ) : List ℚ :=
  (List.range n).map (fun i : ℕ => a + (b - a) * (i : ℚ) / ((n - 1 : ℕ) : ℚ))

/-- Lexicographic comparison of atom-key lists, matching Python list
comparison of sorted bond keys. -/
def lexLe : List ℕ → List ℕ → Bool
  | [], _ => true
  | _ :: _, [] => false
  | a :: as, b :: bs => if a < b then true else if b < a then false else lexLe as bs

/-- Stable insertion used by `stableSortBy`: the new element goes in front of
the first list element it compares less-or-equal to. -/
def stableInsert (le : α → α → Bool) (x : α) : List α → List α
  | [] => [x]
  | y :: ys => if le x y then x :: y :: ys else y :: stableInsert le x ys

/-- Stable sort (model of Python's stable `sorted`). -/
def stableSortBy (le : α → α → Bool) : List α → List α
  | [] => []
  | x :: xs => stableInsert le x (stableSortBy le xs)

/-- Unpack a Python pattern `x, = s` over a one-element frozenset, raising
the arity error otherwise. -/
def singleton? (s : List ℕ) : Except Err ℕ :=
  match s with
  | [x] => .ok x
  | _ => .error .malformedReactionGraph

/-- Unpack a bond key into its two atom keys (`f(*bnd_key)` call spreading);
a bond key without exactly two atoms is a `TypeError` at the call site. -/
def two? (s : List ℕ) : Except Err (ℕ × ℕ) :=
  match s with
  | [x, y] => .ok (x, y)
  | _ => .error .typeError

/-- Modelled from the spec: `automol.zmat.distance_coordinate_name`
(external collaborator) returns the name of the distance coordinate whose
defining atom pair is the given pair. -/
def distance_coordinate_name (zma : ZMat) (k1 k2 : ℕ) : Except Err String :=
  match zma.coords.find? (fun p =>
      match p.2 with
      | [[a, b]] => (a = k1 && b = k2) || (a = k2 && b = k1)
      | _ => false) with
  | some p => .ok p.1
  | none => .error .keyError

/-- Modelled from the spec: `automol.zmat.central_angle_coordinate_name`
(external collaborator); padded windows (containing `none`) have no
coordinate and fail. -/
def central_angle_coordinate_name (zma : ZMat) (w : List (Option ℕ)) :
    Except Err String :=
  match w with
  | [some a, some b, some c] =>
    match zma.coords.find? (fun p =>
        match p.2 with
        | [[x, y, z]] => (x = a && y = b && z = c) || (x = c && y = b && z = a)
        | _ => false) with
    | some p => .ok p.1
    | none => .error .keyError
  | _ => .error .typeError

/-- Modelled from the spec: `automol.zmat.dihedral_angle_coordinate_name`
(external collaborator). -/
def dihedral_angle_coordinate_name (zma : ZMat) (w : List (Option ℕ)) :
    Except Err String :=
  match w with
  | [some a, some b, some c, some d] =>
    match zma.coords.find? (fun p =>
        match p.2 with
        | [[x, y, z, u]] =>
          (x = a && y = b && z = c && u = d) || (x = d && y = c && z = b && u = a)
        | _ => false) with
    | some p => .ok p.1
    | none => .error .keyError
  | _ => .error .typeError

/-- Modelled from the spec: `automol.zmat.constraint_dct` (external
collaborator) maps each requested coordinate name to its current value. -/
def zmat_constraint_dct (zma : ZMat) (names : List String) : List (String × ℚ) :=
  names.filterMap (fun n => (zma.vals.find? (fun p => p.1 = n)).map (fun p => (n, p.2)))

/-- Modelled from the spec: `automol.util.dict_.values_by_unordered_tuple`
applied to the bond-length table (`automol.util` is repository code not under
`src/`): look the symbol pair up in either order, `none` when absent. -/
def values_by_unordered_tuple (lenDct : LenDct) (s1 s2 : String) : Option ℚ :=
  (lenDct.find? (fun e =>
      (e.1.1 = s1 && e.1.2 = s2) || (e.1.1 = s2 && e.1.2 = s1))).map (·.2)

/-- Rotate a cycle so that the given key is first, `none` when absent. -/
def rotateToFront (keys : List ℕ) (start : ℕ) : Option (List ℕ) :=
  (List.range keys.length).findSome? (fun i =>
    let r := keys.rotate i
    if r.head? = some start then some r else none)

/-- Modelled from the spec: `automol.graph.cycle_ring_atom_key_to_front`
(external collaborator): rotate (and reverse if needed) the cycle so it
begins at `start` and, when given, ends at `endk`. -/
def cycle_ring_atom_key_to_front (keys : List ℕ) (start : ℕ)
    (endk : Option ℕ) : Except Err (List ℕ) :=
  match rotateToFront keys start with
  | none => .error .valueError
  | some r =>
    match endk with
    | none => .ok r
    | some e =>
      if r.getLast? = some e then .ok r
      else
        match rotateToFront keys.reverse start with
        | some r' => if r'.getLast? = some e then .ok r' else .error .valueError
        | none => .error .valueError

/-- Model of `more_itertools.windowed(l, n)`: sliding windows of size `n`;
a too-short nonempty input yields one `none`-padded window. -/
def windowed (n : ℕ) (l : List α) : List (List (Option α)) :=
  if l.isEmpty then []
  else if l.length < n then
    [l.map some ++ List.replicate (n - l.length) none]
  else
    (List.range (l.length - n + 1)).map (fun i => ((l.drop i).take n).map some)

/-- Comparison on optional atom keys used to sort windows (`none` first,
matching the only case Python's `sorted` accepts without error: at most one
padded window). -/
def optLe : Option ℕ → Option ℕ → Bool
  | none, _ => true
  | some _, none => false
  | some a, some b => a ≤ b

/-- Lexicographic comparison of windows. -/
def winLe : List (Option ℕ) → List (Option ℕ) → Bool
  | [], _ => true
  | _ :: _, [] => false
  | a :: as, b :: bs =>
    if a = b then winLe as bs else optLe a b

/-- Dummy-key map: parent atom key to minted dummy atom key. -/
abbrev DummyMap := List (ℕ × ℕ)

/-- Opaque carrier for TS geometries (only passed to collaborators). -/
structure Geom where
  id : ℕ
deriving DecidableEq

/-- Opaque carrier for the coordinate skeleton returned by the z-matrix
collaborator (`vmatrix`). -/
structure VMat where
  id : ℕ
deriving DecidableEq

/-- Modelled from the spec: the record of external collaborator operations
consumed by the embedded code (abstract signatures of spec section 6):
graph operations (`automol.graph`, `automol.graph.ts`), geometry operations
(`automol.geom`), the z-matrix builder (`automol.graph.vmat`,
`automol.zmat.from_geometry`) and the Reaction dummy-atom update
(`automol.reac._reac.add_dummy_atoms`). -/
structure Collab where
  linear_atoms : Geom → List ℕ
  reactants_graph : TSGraph → TSGraph
  insert_dummies_on_linear_atoms : Geom → List ℕ → TSGraph → Geom × DummyMap
  add_dummy_atoms : Reaction → DummyMap → Reaction
  forming_rings_atom_keys : TSGraph → List (List ℕ)
  shortest_path_between_atoms : TSGraph → ℕ → ℕ → List ℕ
  shortest_path_between_groups : TSGraph → BondKey → BondKey → List ℕ
  atom_neighbor_atom_key : TSGraph → ℕ → List ℕ → ℕ
  sigma_radical_atom_keys : TSGraph → List ℕ
  vmatrix : TSGraph → Option (List ℕ) → VMat × List ℕ
  continue_vmatrix : TSGraph → List ℕ → VMat → List ℕ → VMat × List ℕ
  from_subset : Geom → List ℕ → Geom
  from_geometry : VMat → Geom → ZMat

/-- Unpack `ts.forming_bond_keys` / `ts.breaking_bond_keys` as a single bond
(`key, = ...`); any other arity is the malformed-graph failure. -/
def oneBond : List BondKey → Except Err BondKey
  | [k] => .ok k
  | _ => .error .malformedReactionGraph

/- ---------------------------------------------------------------------
`src/automol/reac/_util.py`
--------------------------------------------------------------------- -/

/-- Embeds `_util.hydrogen_migration_atom_keys`: attacking, transferring and
donating atoms from bond-key set algebra, plus a neighbor of the attacking
atom along the chain to the donating atom. -/
def hydrogen_migration_atom_keys (c : Collab) (rxn : Reaction) :
    Except Err (ℕ × ℕ × ℕ × ℕ) := do
  let f ← oneBond rxn.forward_ts_graph.frm
  let b ← oneBond rxn.forward_ts_graph.brk
  let tra ← singleton? (linter f b)
  let att ← singleton? (ldiff f b)
  let don ← singleton? (ldiff b f)
  let gra := c.reactants_graph rxn.forward_ts_graph
  let path := c.shortest_path_between_atoms gra att don
  let ngb := c.atom_neighbor_atom_key gra att path
  return (att, tra, don, ngb)

/-- Embeds `_util.ring_forming_scission_atom_keys`. -/
def ring_forming_scission_atom_keys (rxn : Reaction) :
    Except Err (ℕ × ℕ × ℕ) := do
  let f ← oneBond rxn.forward_ts_graph.frm
  let b ← oneBond rxn.forward_ts_graph.brk
  let tra ← singleton? (linter f b)
  let att ← singleton? (ldiff f b)
  let don ← singleton? (ldiff b f)
  return (att, tra, don)

/-- Embeds `_util.ring_forming_scission_chain`: chain from the donating atom
to the attacking atom. -/
def ring_forming_scission_chain (c : Collab) (rxn : Reaction) :
    Except Err (List ℕ) := do
  let (att, _, don) ← ring_forming_scission_atom_keys rxn
  let gra := c.reactants_graph rxn.forward_ts_graph
  return c.shortest_path_between_atoms gra don att

/-- Embeds `_util.hydrogen_abstraction_atom_keys`. -/
def hydrogen_abstraction_atom_keys (rxn : Reaction) :
    Except Err (ℕ × ℕ × ℕ) := do
  let f ← oneBond rxn.forward_ts_graph.frm
  let b ← oneBond rxn.forward_ts_graph.brk
  let hyd ← singleton? (linter f b)
  let att ← singleton? (ldiff f b)
  let don ← singleton? (ldiff b f)
  return (att, hyd, don)

/-- Embeds `_util.hydrogen_abstraction_is_sigma`. -/
def hydrogen_abstraction_is_sigma (c : Collab) (rxn : Reaction) :
    Except Err Bool := do
  if rxn.class_ = "HYDROGEN_ABSTRACTION" then pure () else .error .assertionError
  let tsg := rxn.forward_ts_graph
  let rct_gra := c.reactants_graph tsg
  let sig_rad_keys := c.sigma_radical_atom_keys rct_gra
  let b ← oneBond tsg.brk
  let f ← oneBond tsg.frm
  let rad ← singleton? (ldiff f b)
  return decide (rad ∈ sig_rad_keys)

/-- Embeds `_util.insertion_forming_bond_keys`: canonically sort the forming
bond keys by their sorted atom tuples, then stably sort by the size of the
intersection with the breaking bond key. -/
def insertion_forming_bond_keys (rxn : Reaction) :
    Except Err (List BondKey) := do
  if rxn.class_ = "INSERTION" then pure () else .error .assertionError
  let b ← oneBond rxn.forward_ts_graph.brk
  let frm1 := stableSortBy (fun x y => lexLe (lsort x) (lsort y))
    rxn.forward_ts_graph.frm
  let frm2 := stableSortBy
    (fun x y => decide ((linter x b).length ≤ (linter y b).length)) frm1
  return frm2

/-- Embeds `_util.substitution_atom_keys`. -/
def substitution_atom_keys (rxn : Reaction) : Except Err (ℕ × ℕ × ℕ) := do
  let f ← oneBond rxn.forward_ts_graph.frm
  let b ← oneBond rxn.forward_ts_graph.brk
  let tra ← singleton? (linter f b)
  let att ← singleton? (ldiff f b)
  let lea ← singleton? (ldiff b f)
  return (att, tra, lea)

/- ---------------------------------------------------------------------
`src/automol/reac/_scan.py`: scan and constraint coordinates
--------------------------------------------------------------------- -/

/-- Embeds `_scan.hydrogen_migration_scan_coordinate`: name of the forming
bond's distance coordinate. -/
def hydrogen_migration_scan_coordinate (rxn : Reaction) (zma : ZMat) :
    Except Err String := do
  let f ← oneBond rxn.forward_ts_graph.frm
  let (k1, k2) ← two? f
  distance_coordinate_name zma k1 k2

/-- Embeds `_scan.beta_scission_scan_coordinate`: name of the breaking
bond's distance coordinate. -/
def beta_scission_scan_coordinate (rxn : Reaction) (zma : ZMat) :
    Except Err String := do
  let b ← oneBond rxn.forward_ts_graph.brk
  let (k1, k2) ← two? b
  distance_coordinate_name zma k1 k2

/-- Embeds `_scan.ring_forming_scission_scan_coordinate`. -/
def ring_forming_scission_scan_coordinate (rxn : Reaction) (zma : ZMat) :
    Except Err String := do
  let b ← oneBond rxn.forward_ts_graph.brk
  let (k1, k2) ← two? b
  distance_coordinate_name zma k1 k2

/-- Embeds `_scan.elimination_scan_coordinate`. -/
def elimination_scan_coordinate (rxn : Reaction) (zma : ZMat) :
    Except Err String := do
  let f ← oneBond rxn.forward_ts_graph.frm
  let (k1, k2) ← two? f
  distance_coordinate_name zma k1 k2

/-- Embeds `_scan.hydrogen_abstraction_scan_coordinate`. -/
def hydrogen_abstraction_scan_coordinate (rxn : Reaction) (zma : ZMat) :
    Except Err String := do
  let f ← oneBond rxn.forward_ts_graph.frm
  let (k1, k2) ← two? f
  distance_coordinate_name zma k1 k2

/-- Embeds `_scan.addition_scan_coordinate`. -/
def addition_scan_coordinate (rxn : Reaction) (zma : ZMat) :
    Except Err String := do
  let f ← oneBond rxn.forward_ts_graph.frm
  let (k1, k2) ← two? f
  distance_coordinate_name zma k1 k2

/-- Embeds `_scan.insertion_scan_coordinate`: the first (primary) forming
bond returned by `insertion_forming_bond_keys`. -/
def insertion_scan_coordinate (rxn : Reaction) (zma : ZMat) :
    Except Err String := do
  let fs ← insertion_forming_bond_keys rxn
  let f ← match fs with
    | [a, _] => pure a
    | _ => .error .valueError
  let (k1, k2) ← two? f
  distance_coordinate_name zma k1 k2

/-- Embeds `_scan.substitution_scan_coordinate`. -/
def substitution_scan_coordinate (rxn : Reaction) (zma : ZMat) :
    Except Err String := do
  let f ← oneBond rxn.forward_ts_graph.frm
  let (k1, k2) ← two? f
  distance_coordinate_name zma k1 k2

/-- Embeds `_scan.hydrogen_migration_constraint_coordinates`: the
attacking-atom-to-neighbor distance. -/
def hydrogen_migration_constraint_coordinates (c : Collab) (rxn : Reaction)
    (zma : ZMat) : Except Err (List String) := do
  let (att, _, _, ngb) ← hydrogen_migration_atom_keys c rxn
  let n ← distance_coordinate_name zma att ngb
  return [n]

/-- Embeds `_scan.ring_forming_scission_constraint_coordinates`: the ring
chain's internal angles and dihedrals, with windows sorted. -/
def ring_forming_scission_constraint_coordinates (c : Collab) (rxn : Reaction)
    (zma : ZMat) : Except Err (List String) := do
  let chain_keys ← ring_forming_scission_chain c rxn
  let ang_keys_lst := stableSortBy winLe (windowed 3 chain_keys.tail)
  let dih_keys_lst := stableSortBy winLe (windowed 4 chain_keys)
  let ang_names ← ang_keys_lst.mapM (central_angle_coordinate_name zma)
  let dih_names ← dih_keys_lst.mapM (dihedral_angle_coordinate_name zma)
  return ang_names ++ dih_names

/-- The eight supported class tags of the dispatch tables. -/
def supportedClasses : List String :=
  ["HYDROGEN_MIGRATION", "BETA_SCISSION", "RING_FORM_SCISSION", "ELIMINATION",
   "HYDROGEN_ABSTRACTION", "ADDITION", "INSERTION", "SUBSTITUTION"]

/-- The per-class scan-coordinate dispatch table of `_scan.scan_coordinate`
(`none` models the `KeyError` on a tag outside the table). -/
def scan_coordinate_fn (cls : String) :
    Option (Reaction → ZMat → Except Err String) :=
  if cls = "HYDROGEN_MIGRATION" then some hydrogen_migration_scan_coordinate
  else if cls = "BETA_SCISSION" then some beta_scission_scan_coordinate
  else if cls = "RING_FORM_SCISSION" then some ring_forming_scission_scan_coordinate
  else if cls = "ELIMINATION" then some elimination_scan_coordinate
  else if cls = "HYDROGEN_ABSTRACTION" then some hydrogen_abstraction_scan_coordinate
  else if cls = "ADDITION" then some addition_scan_coordinate
  else if cls = "INSERTION" then some insertion_scan_coordinate
  else if cls = "SUBSTITUTION" then some substitution_scan_coordinate
  else none

/-- Embeds `_scan.scan_coordinate`: dispatch on the class tag. -/
def scan_coordinate (rxn : Reaction) (zma : ZMat) : Except Err String :=
  match scan_coordinate_fn rxn.class_ with
  | some f => f rxn zma
  | none => .error .unsupportedReactionClass

/-- The per-class constraint-coordinate dispatch table of
`_scan.constraint_coordinates`. -/
def constraint_coordinates_fn (cls : String) :
    Option (Collab → Reaction → ZMat → Except Err (List String)) :=
  if cls = "HYDROGEN_MIGRATION" then some hydrogen_migration_constraint_coordinates
  else if cls = "BETA_SCISSION" then some (fun _ _ _ => .ok [])
  else if cls = "RING_FORM_SCISSION" then some ring_forming_scission_constraint_coordinates
  else if cls = "ELIMINATION" then some (fun _ _ _ => .ok [])
  else if cls = "HYDROGEN_ABSTRACTION" then some (fun _ _ _ => .ok [])
  else if cls = "ADDITION" then some (fun _ _ _ => .ok [])
  else if cls = "INSERTION" then some (fun _ _ _ => .ok [])
  else if cls = "SUBSTITUTION" then some (fun _ _ _ => .ok [])
  else none

/-- Embeds `_scan.constraint_coordinates`. -/
def constraint_coordinates (c : Collab) (rxn : Reaction) (zma : ZMat) :
    Except Err (List String) :=
  match constraint_coordinates_fn rxn.class_ with
  | some f => f c rxn zma
  | none => .error .unsupportedReactionClass

/- ---------------------------------------------------------------------
`src/automol/reac/_scan.py`: grids
--------------------------------------------------------------------- -/

/-- Embeds `_scan._ts_bnd_len`: current reference length of the bond behind
the scan coordinate, `none` when the element pair is absent from the table.
The source sorts the two element symbols before the table lookup; the
modelled lookup `values_by_unordered_tuple` accepts the pair in either order,
which makes the canonicalizing sort immaterial, so the symbols are passed in
tuple order. -/
def ts_bnd_len (lenDct : LenDct) (zma : ZMat) (scan_coord : String) :
    Except Err (Option ℚ) := do
  let entry ← match zma.coords.find? (fun p => p.1 = scan_coord) with
    | some p => pure p.2
    | none => .error .keyError
  let dist_coo ← match entry with
    | [t] => pure t
    | _ => .error .valueError
  let symbs ← dist_coo.mapM (fun k =>
    match zma.symbols[k]? with
    | some s => Except.ok s
    | none => Except.error Err.keyError)
  let (s1, s2) ← match symbs with
    | [a, b] => pure (a, b)
    | _ => .error .typeError
  return values_by_unordered_tuple lenDct s1 s2

/-- Embeds `_scan.hydrogen_migration_grid`: segment from the current forming
length down to 2.0 angstrom in 0.3-angstrom steps, then 18 equal points from
2.0 angstrom to the forming length plus 0.05 angstrom.  An unresolved bond
length is a `TypeError` (the source has no default branch here). -/
def hydrogen_migration_grid (lenDct : LenDct) (rxn : Reaction) (zma : ZMat) :
    Except Err (List ℚ) := do
  let scan_name ← hydrogen_migration_scan_coordinate rxn zma
  let interval := 0.3 * ANG2BOHR
  let fblOpt ← ts_bnd_len lenDct zma scan_name
  let frm_bnd_len ← match fblOpt with
    | some l => pure l
    | none => .error .typeError
  let rmin1 := 2.0 * ANG2BOHR
  let rmin2 := frm_bnd_len + 0.05 * ANG2BOHR
  let rmax := frm_bnd_len
  let grid1 :=
    if rmin1 < rmax then
      let npoints := ⌈(rmax - rmin1) / interval⌉
      if npoints < 1 then [] else linspace rmax rmin1 npoints.toNat
    else []
  let grid2 := linspace rmin1 rmin2 18
  return grid1 ++ grid2

/-- Embeds `_scan.beta_scission_grid`: 14 equal points over the resolved
bond length plus 0.1 to 0.8 angstrom, defaulting to the 1.4 to 2.0 angstrom
range when the bond length is unresolved. -/
def beta_scission_grid (lenDct : LenDct) (rxn : Reaction) (zma : ZMat) :
    Except Err (List ℚ) := do
  let scan_name ← beta_scission_scan_coordinate rxn zma
  let npoints1 := 14
  let fblOpt ← ts_bnd_len lenDct zma scan_name
  let (rmin, rmax) := match fblOpt with
    | some l => (l + 0.1 * ANG2BOHR, l + 0.8 * ANG2BOHR)
    | none => (1.4 * ANG2BOHR, 2.0 * ANG2BOHR)
  return linspace rmin rmax npoints1

/-- Embeds `_scan.ring_forming_scission_grid`: 7 equal points over the
resolved breaking-bond length plus 0.1 to 0.7 angstrom, defaulting to the
1.64 to 2.24 angstrom range. -/
def ring_forming_scission_grid (lenDct : LenDct) (rxn : Reaction) (zma : ZMat) :
    Except Err (List ℚ) := do
  let scan_name ← ring_forming_scission_scan_coordinate rxn zma
  let npoints1 := 7
  let fblOpt ← ts_bnd_len lenDct zma scan_name
  let (r1min, r1max) := match fblOpt with
    | some l => (l + 0.1 * ANG2BOHR, l + 0.7 * ANG2BOHR)
    | none => ((1.54 + 0.1) * ANG2BOHR, (1.54 + 0.7) * ANG2BOHR)
  return linspace r1min r1max npoints1

/-- Embeds `_scan.elimination_grid`: a pair of equal grids (8 and 4 points);
the second range is always default-anchored (`brk_bnd_len = None` in the
source); the resolved first branch adds the raw offsets and both grids are
scaled by the conversion factor afterwards, exactly as in the source. -/
def elimination_grid (lenDct : LenDct) (rxn : Reaction) (zma : ZMat) :
    Except Err (List ℚ × List ℚ) := do
  let scan_name ← elimination_scan_coordinate rxn zma
  let npoints1 := 8
  let npoints2 := 4
  let fblOpt ← ts_bnd_len lenDct zma scan_name
  let (r1min, r1max) := match fblOpt with
    | some l => (l + 0.2, l + 1.4)
    | none => ((1.54 + 0.2) * ANG2BOHR, (1.54 + 1.4) * ANG2BOHR)
  let r2min := (0.74 + 0.2) * ANG2BOHR
  let r2max := (0.74 + 0.8) * ANG2BOHR
  let grid1 := (linspace r1min r1max npoints1).map (· * ANG2BOHR)
  let grid2 := (linspace r2min r2max npoints2).map (· * ANG2BOHR)
  return (grid1, grid2)

/-- Embeds `_scan.hydrogen_abstraction_grid`: 8 equal points, default range
0.7 to 2.2 angstrom. -/
def hydrogen_abstraction_grid (lenDct : LenDct) (rxn : Reaction) (zma : ZMat) :
    Except Err (List ℚ) := do
  let scan_name ← hydrogen_abstraction_scan_coordinate rxn zma
  let npoints1 := 8
  let fblOpt ← ts_bnd_len lenDct zma scan_name
  let (rmin, rmax) := match fblOpt with
    | some l => (l + 0.1 * ANG2BOHR, l + 1.0 * ANG2BOHR)
    | none => (0.7 * ANG2BOHR, 2.2 * ANG2BOHR)
  return linspace rmin rmax npoints1

/-- Embeds `_scan._geometric_progression`: start at `rmin`, repeatedly add
the step and grow it by `gfact`, stopping after `npoints` iterations or when
the next value would equal `rmax` exactly.  The loop body is the auxiliary
recursion. -/
def geomProgAux (rmax gfact : ℚ) : ℚ → ℚ → ℕ → List ℚ
  | _, _, 0 => []
  | rstp, rgrid, n + 1 =>
    let rgrid' := rgrid + rstp
    if rgrid' = rmax then []
    else rgrid' :: geomProgAux rmax gfact (rstp * gfact) rgrid' n

/-- Embeds `_scan._geometric_progression` (entry point). -/
def geometric_progression (rmin rmax : ℚ) (npoints : ℕ)
    (gfact rstp : ℚ) : List ℚ :=
  rmin :: geomProgAux rmax gfact rstp rmin npoints

/-- Embeds `_scan.addition_grid`: 14-point geometric progression with growth
factor 1.1 and initial step 0.05, default range 1.6 to 2.8 angstrom. -/
def addition_grid (lenDct : LenDct) (rxn : Reaction) (zma : ZMat) :
    Except Err (List ℚ) := do
  let scan_name ← addition_scan_coordinate rxn zma
  let npoints1 := 14
  let fblOpt ← ts_bnd_len lenDct zma scan_name
  let (rmin, rmax) := match fblOpt with
    | some l => (l + 0.1 * ANG2BOHR, l + 1.2 * ANG2BOHR)
    | none => (1.6 * ANG2BOHR, 2.8 * ANG2BOHR)
  return geometric_progression rmin rmax npoints1 1.1 0.05

/-- Embeds `_scan.insertion_grid`: 16 equal points, default range 1.4 to 2.4
angstrom. -/
def insertion_grid (lenDct : LenDct) (rxn : Reaction) (zma : ZMat) :
    Except Err (List ℚ) := do
  let scan_name ← insertion_scan_coordinate rxn zma
  let npoints1 := 16
  let fblOpt ← ts_bnd_len lenDct zma scan_name
  let (rmin, rmax) := match fblOpt with
    | some l => (l, l + 1.4 * ANG2BOHR)
    | none => (1.4 * ANG2BOHR, 2.4 * ANG2BOHR)
  return linspace rmin rmax npoints1

/-- Embeds `_scan.substitution_grid`: 14 equal points, default range 0.7 to
2.4 angstrom. -/
def substitution_grid (lenDct : LenDct) (rxn : Reaction) (zma : ZMat) :
    Except Err (List ℚ) := do
  let scan_name ← substitution_scan_coordinate rxn zma
  let npoints1 := 14
  let fblOpt ← ts_bnd_len lenDct zma scan_name
  let (rmin, rmax) := match fblOpt with
    | some l => (l, l + 1.4 * ANG2BOHR)
    | none => (0.7 * ANG2BOHR, 2.4 * ANG2BOHR)
  return linspace rmin rmax npoints1

/-- A scan grid is one value sequence (all classes but elimination) or a
pair of value sequences (elimination's 2-D grid). -/
inductive Grid where
  | one : List ℚ → Grid
  | two : List ℚ → List ℚ → Grid
deriving DecidableEq

/-- The per-class grid dispatch table of `_scan.scan_grid`
(`tight_ts_grid_builder_dct`). -/
def scan_grid_fn (cls : String) :
    Option (LenDct → Reaction → ZMat → Except Err Grid) :=
  if cls = "BETA_SCISSION" then
    some (fun d r z => (beta_scission_grid d r z).map Grid.one)
  else if cls = "ADDITION" then
    some (fun d r z => (addition_grid d r z).map Grid.one)
  else if cls = "HYDROGEN_MIGRATION" then
    some (fun d r z => (hydrogen_migration_grid d r z).map Grid.one)
  else if cls = "ELIMINATION" then
    some (fun d r z => (elimination_grid d r z).map (fun p => Grid.two p.1 p.2))
  else if cls = "RING_FORM_SCISSION" then
    some (fun d r z => (ring_forming_scission_grid d r z).map Grid.one)
  else if cls = "HYDROGEN_ABSTRACTION" then
    some (fun d r z => (hydrogen_abstraction_grid d r z).map Grid.one)
  else if cls = "SUBSTITUTION" then
    some (fun d r z => (substitution_grid d r z).map Grid.one)
  else if cls = "INSERTION" then
    some (fun d r z => (insertion_grid d r z).map Grid.one)
  else none

/-- Embeds `_scan.scan_grid`. -/
def scan_grid (lenDct : LenDct) (rxn : Reaction) (zma : ZMat) :
    Except Err Grid :=
  match scan_grid_fn rxn.class_ with
  | some f => f lenDct rxn zma
  | none => .error .unsupportedReactionClass

/-- Embeds `_scan.UPDATE_GUESS_DCT`. -/
def UPDATE_GUESS_DCT (cls : String) : Option Bool :=
  if cls = "BETA_SCISSION" then some false
  else if cls = "ADDITION" then some false
  else if cls = "HYDROGEN_MIGRATION" then some true
  else if cls = "ELIMINATION" then some false
  else if cls = "RING_FORM_SCISSION" then some false
  else if cls = "HYDROGEN_ABSTRACTION" then some false
  else if cls = "SUBSTITUTION" then some false
  else if cls = "INSERTION" then some false
  else none

/-- Embeds `_scan.build_scan_info`: scan name (wrapped in a one-element
tuple by the source), constraint map, grid (wrapped in a one-element tuple)
and the update-guess flag. -/
def build_scan_info (c : Collab) (lenDct : LenDct) (zrxn : Reaction)
    (zma : ZMat) :
    Except Err (List String × List (String × ℚ) × List Grid × Bool) := do
  let scan_name ← scan_coordinate zrxn zma
  let const_names ← constraint_coordinates c zrxn zma
  let constraint_dct := zmat_constraint_dct zma const_names
  let grid ← scan_grid lenDct zrxn zma
  let update_guess ← match UPDATE_GUESS_DCT zrxn.class_ with
    | some b => pure b
    | none => Except.error Err.unsupportedReactionClass
  return ([scan_name], constraint_dct, [grid], update_guess)

/- ---------------------------------------------------------------------
`src/automol/reac/_zmat.py`
--------------------------------------------------------------------- -/

/-- Result of a TS z-matrix build: z-matrix, row keys, dummy-key map. -/
abbrev ZRet := ZMat × List ℕ × DummyMap

/-- Unpack the single forming ring (`rng_keys, = ts.forming_rings_atom_keys`). -/
def oneRing : List (List ℕ) → Except Err (List ℕ)
  | [r] => .ok r
  | _ => .error .valueError

/-- Embeds `_zmat.hydrogen_migration_ts_zmatrix`: dummy insertion, then the
forming ring reordered to (migrating atom, ..., donating atom) and passed to
the z-matrix collaborator as the starting order. -/
def hydrogen_migration_ts_zmatrix (c : Collab) (rxn : Reaction)
    (ts_geo : Geom) : Except Err ZRet := do
  let lin_idxs := c.linear_atoms ts_geo
  let rcts_gra := c.reactants_graph rxn.forward_ts_graph
  let (geo, dummy_key_dct) :=
    c.insert_dummies_on_linear_atoms ts_geo lin_idxs rcts_gra
  let rxn1 := c.add_dummy_atoms rxn dummy_key_dct
  let rng_keys ← oneRing (c.forming_rings_atom_keys rxn1.forward_ts_graph)
  let (_, hyd_key, don_key, _) ← hydrogen_migration_atom_keys c rxn1
  let rng_keys ← cycle_ring_atom_key_to_front rng_keys hyd_key (some don_key)
  let (vma, zma_keys) := c.vmatrix rxn1.forward_ts_graph (some rng_keys)
  let zma_geo := c.from_subset geo zma_keys
  let zma := c.from_geometry vma zma_geo
  return (zma, zma_keys, dummy_key_dct)

/-- Embeds `_zmat.beta_scission_ts_zmatrix`. -/
def beta_scission_ts_zmatrix (c : Collab) (rxn : Reaction) (ts_geo : Geom) :
    Except Err ZRet := do
  let lin_idxs := c.linear_atoms ts_geo
  let rcts_gra := c.reactants_graph rxn.forward_ts_graph
  let (geo, dummy_key_dct) :=
    c.insert_dummies_on_linear_atoms ts_geo lin_idxs rcts_gra
  let rxn1 := c.add_dummy_atoms rxn dummy_key_dct
  let (vma, zma_keys) := c.vmatrix rxn1.forward_ts_graph none
  let zma_geo := c.from_subset geo zma_keys
  let zma := c.from_geometry vma zma_geo
  return (zma, zma_keys, dummy_key_dct)

/-- Embeds `_zmat.ring_forming_scission_ts_zmatrix`.  The source computes
the reordered ring (transferring atom first, attacking atom last, then the
second-to-last key rotated to the front) but calls the z-matrix collaborator
without a starting order (`vmatrix(rxn.forward_ts_graph)` on line 118), so
the reordered ring does not reach the collaborator; the embedding reproduces
that behavior faithfully. -/
def ring_forming_scission_ts_zmatrix (c : Collab) (rxn : Reaction)
    (ts_geo : Geom) : Except Err ZRet := do
  let lin_idxs := c.linear_atoms ts_geo
  let rcts_gra := c.reactants_graph rxn.forward_ts_graph
  let (geo, dummy_key_dct) :=
    c.insert_dummies_on_linear_atoms ts_geo lin_idxs rcts_gra
  let rxn1 := c.add_dummy_atoms rxn dummy_key_dct
  let rng_keys ← oneRing (c.forming_rings_atom_keys rxn1.forward_ts_graph)
  let (att_key, tra_key, _) ← ring_forming_scission_atom_keys rxn1
  let rng_keys ← cycle_ring_atom_key_to_front rng_keys tra_key (some att_key)
  let snd_last ← match rng_keys.reverse with
    | _ :: x :: _ => pure x
    | _ => Except.error Err.valueError
  let _rng_keys ← cycle_ring_atom_key_to_front rng_keys snd_last none
  let (vma, zma_keys) := c.vmatrix rxn1.forward_ts_graph none
  let zma_geo := c.from_subset geo zma_keys
  let zma := c.from_geometry vma zma_geo
  return (zma, zma_keys, dummy_key_dct)

/-- Embeds `_zmat.elimination_ts_zmatrix`: pick the breaking bond with the
smallest intersection with the forming bond, orient it, reorder the forming
ring with it and pass the ring as the starting order. -/
def elimination_ts_zmatrix (c : Collab) (rxn : Reaction) (ts_geo : Geom) :
    Except Err ZRet := do
  let lin_idxs := c.linear_atoms ts_geo
  let rcts_gra := c.reactants_graph rxn.forward_ts_graph
  let (geo, dummy_key_dct) :=
    c.insert_dummies_on_linear_atoms ts_geo lin_idxs rcts_gra
  let rxn1 := c.add_dummy_atoms rxn dummy_key_dct
  let rng_keys ← oneRing (c.forming_rings_atom_keys rxn1.forward_ts_graph)
  let frm_bnd_key ← oneBond rxn1.forward_ts_graph.frm
  let brk_sorted := stableSortBy
    (fun x y => decide ((linter x frm_bnd_key).length ≤ (linter y frm_bnd_key).length))
    rxn1.forward_ts_graph.brk
  let brk_bnd_key ← match brk_sorted with
    | k :: _ => pure k
    | [] => Except.error Err.valueError
  let (key1, key2) ←
    if linter brk_bnd_key frm_bnd_key ≠ [] then do
      let k1 ← singleton? (linter brk_bnd_key frm_bnd_key)
      let k2 ← singleton? (ldiff brk_bnd_key frm_bnd_key)
      pure (k1, k2)
    else do
      let path := c.shortest_path_between_groups rxn1.forward_ts_graph
        brk_bnd_key frm_bnd_key
      let k1 ← singleton? (linter brk_bnd_key path)
      let k2 ← singleton? (ldiff brk_bnd_key path)
      pure (k1, k2)
  let rng_keys ← cycle_ring_atom_key_to_front rng_keys key1 (some key2)
  let (vma, zma_keys) := c.vmatrix rxn1.forward_ts_graph (some rng_keys)
  let zma_geo := c.from_subset geo zma_keys
  let zma := c.from_geometry vma zma_geo
  return (zma, zma_keys, dummy_key_dct)

/-- Embeds `_zmat.hydrogen_abstraction_ts_zmatrix`: the transferred hydrogen
(and the attacking atom of a sigma-radical abstraction) joins the linear
atoms; the z-matrix starts from the first reactant's keys and is continued
with the second's. -/
def hydrogen_abstraction_ts_zmatrix (c : Collab) (rxn : Reaction)
    (ts_geo : Geom) : Except Err ZRet := do
  let lin_idxs := c.linear_atoms ts_geo
  let (att_key, hyd_key, _) ← hydrogen_abstraction_atom_keys rxn
  let lin_idxs := lin_idxs ++ [hyd_key]
  let isSigma ← hydrogen_abstraction_is_sigma c rxn
  let lin_idxs :=
    if isSigma && !(lin_idxs.contains att_key) then lin_idxs ++ [att_key]
    else lin_idxs
  let lin_idxs := stableSortBy (fun a b : ℕ => a ≤ b) lin_idxs
  let rcts_gra := c.reactants_graph rxn.forward_ts_graph
  let (geo, dummy_key_dct) :=
    c.insert_dummies_on_linear_atoms ts_geo lin_idxs rcts_gra
  let rxn1 := c.add_dummy_atoms rxn dummy_key_dct
  let tsg := rxn1.forward_ts_graph
  let (rct1_keys, rct2_keys) ← match rxn1.reactants_keys with
    | [r1, r2] => pure (r1, r2)
    | _ => Except.error Err.valueError
  let (vma, zma_keys) := c.vmatrix tsg (some rct1_keys)
  let (vma, zma_keys) := c.continue_vmatrix tsg rct2_keys vma zma_keys
  let zma_geo := c.from_subset geo zma_keys
  let zma := c.from_geometry vma zma_geo
  return (zma, zma_keys, dummy_key_dct)

/-- Embeds `_zmat.addition_ts_zmatrix`. -/
def addition_ts_zmatrix (c : Collab) (rxn : Reaction) (ts_geo : Geom) :
    Except Err ZRet := do
  let lin_idxs := c.linear_atoms ts_geo
  let rcts_gra := c.reactants_graph rxn.forward_ts_graph
  let (geo, dummy_key_dct) :=
    c.insert_dummies_on_linear_atoms ts_geo lin_idxs rcts_gra
  let rxn1 := c.add_dummy_atoms rxn dummy_key_dct
  let tsg := rxn1.forward_ts_graph
  let (rct1_keys, rct2_keys) ← match rxn1.reactants_keys with
    | [r1, r2] => pure (r1, r2)
    | _ => Except.error Err.valueError
  let (vma, zma_keys) := c.vmatrix tsg (some rct1_keys)
  let (vma, zma_keys) := c.continue_vmatrix tsg rct2_keys vma zma_keys
  let zma_geo := c.from_subset geo zma_keys
  let zma := c.from_geometry vma zma_geo
  return (zma, zma_keys, dummy_key_dct)

/-- Embeds `_zmat.insertion_ts_zmatrix`: the secondary forming bond is
oriented and dropped from the ring ordering.  In the source's
non-intersecting branch, `key1` is never assigned before use
(an unbound local name), which the embedding reproduces as a name error. -/
def insertion_ts_zmatrix (c : Collab) (rxn : Reaction) (ts_geo : Geom) :
    Except Err ZRet := do
  let lin_idxs := c.linear_atoms ts_geo
  let rcts_gra := c.reactants_graph rxn.forward_ts_graph
  let (geo, dummy_key_dct) :=
    c.insert_dummies_on_linear_atoms ts_geo lin_idxs rcts_gra
  let rxn1 := c.add_dummy_atoms rxn dummy_key_dct
  let rng_keys ← oneRing (c.forming_rings_atom_keys rxn1.forward_ts_graph)
  let brk_bnd_key ← oneBond rxn1.forward_ts_graph.brk
  let fs ← insertion_forming_bond_keys rxn1
  let frm_bnd_key ← match fs with
    | [_, f] => pure f
    | _ => Except.error Err.valueError
  let (key1, key2) ←
    if linter frm_bnd_key brk_bnd_key ≠ [] then do
      let k1 ← singleton? (linter frm_bnd_key brk_bnd_key)
      let k2 ← singleton? (ldiff frm_bnd_key brk_bnd_key)
      pure (k1, k2)
    else do
      let path := c.shortest_path_between_groups rxn1.forward_ts_graph
        frm_bnd_key brk_bnd_key
      let _k2 ← singleton? (ldiff frm_bnd_key path)
      Except.error Err.nameError
  let rng_keys ← cycle_ring_atom_key_to_front rng_keys key1 (some key2)
  let (vma, zma_keys) := c.vmatrix rxn1.forward_ts_graph (some rng_keys)
  let zma_geo := c.from_subset geo zma_keys
  let zma := c.from_geometry vma zma_geo
  return (zma, zma_keys, dummy_key_dct)

/-- Embeds `_zmat.substitution_ts_zmatrix`: the transferred atom joins the
linear atoms (without re-sorting, as in the source). -/
def substitution_ts_zmatrix (c : Collab) (rxn : Reaction) (ts_geo : Geom) :
    Except Err ZRet := do
  let lin_idxs := c.linear_atoms ts_geo
  let (_, tra_key, _) ← substitution_atom_keys rxn
  let lin_idxs := lin_idxs ++ [tra_key]
  let rcts_gra := c.reactants_graph rxn.forward_ts_graph
  let (geo, dummy_key_dct) :=
    c.insert_dummies_on_linear_atoms ts_geo lin_idxs rcts_gra
  let rxn1 := c.add_dummy_atoms rxn dummy_key_dct
  let tsg := rxn1.forward_ts_graph
  let (rct1_keys, rct2_keys) ← match rxn1.reactants_keys with
    | [r1, r2] => pure (r1, r2)
    | _ => Except.error Err.valueError
  let (vma, zma_keys) := c.vmatrix tsg (some rct1_keys)
  let (vma, zma_keys) := c.continue_vmatrix tsg rct2_keys vma zma_keys
  let zma_geo := c.from_subset geo zma_keys
  let zma := c.from_geometry vma zma_geo
  return (zma, zma_keys, dummy_key_dct)

/-- The per-class TS z-matrix dispatch table of `_zmat.ts_zmatrix`. -/
def ts_zmatrix_fn (cls : String) :
    Option (Collab → Reaction → Geom → Except Err ZRet) :=
  if cls = "HYDROGEN_MIGRATION" then some hydrogen_migration_ts_zmatrix
  else if cls = "BETA_SCISSION" then some beta_scission_ts_zmatrix
  else if cls = "RING_FORM_SCISSION" then some ring_forming_scission_ts_zmatrix
  else if cls = "ELIMINATION" then some elimination_ts_zmatrix
  else if cls = "HYDROGEN_ABSTRACTION" then some hydrogen_abstraction_ts_zmatrix
  else if cls = "ADDITION" then some addition_ts_zmatrix
  else if cls = "INSERTION" then some insertion_ts_zmatrix
  else if cls = "SUBSTITUTION" then some substitution_ts_zmatrix
  else none

/-- Embeds `_zmat.ts_zmatrix`: dispatch on the class tag. -/
def ts_zmatrix (c : Collab) (rxn : Reaction) (ts_geo : Geom) :
    Except Err ZRet :=
  match ts_zmatrix_fn rxn.class_ with
  | some f => f c rxn ts_geo
  | none => .error .unsupportedReactionClass

/- ---------------------------------------------------------------------
Concrete inputs used by witnesses and counterexamples
--------------------------------------------------------------------- -/

/-- A small z-matrix: five atoms C, H, O, N, F and three named distance
coordinates R1 = (0,1), R2 = (1,2), R3 = (3,4). -/
def exZma : ZMat :=
  ⟨["C", "H", "O", "N", "F"],
   [("R1", [[0, 1]]), ("R2", [[1, 2]]), ("R3", [[3, 4]])],
   []⟩

/-- A bond-length table resolving the C-H pair to 2.3 angstrom (working
units). -/
def lenCH : LenDct := [(("C", "H"), 2.3 * ANG2BOHR)]

/-- A hydrogen migration reaction with forming bond 0-1 and breaking
bond 1-2. -/
def migRxn : Reaction := ⟨"HYDROGEN_MIGRATION", ⟨[[0, 1]], [[1, 2]]⟩, []⟩

/-- A beta scission reaction with the same TS graph. -/
def betaRxn : Reaction := ⟨"BETA_SCISSION", ⟨[[0, 1]], [[1, 2]]⟩, []⟩

/-- An elimination reaction with the same TS graph. -/
def elimRxn : Reaction := ⟨"ELIMINATION", ⟨[[0, 1]], [[1, 2]]⟩, []⟩

/-- A ring-forming scission reaction: forming bond 0-4 closing the ring
0-1-2-3-4, breaking bond 4-5 (attacking atom 0, transferring atom 4,
donating atom 5). -/
def rfsRxn : Reaction := ⟨"RING_FORM_SCISSION", ⟨[[0, 4]], [[4, 5]]⟩, []⟩

/-- The insertion reaction of the spec scenario: breaking bond 2-3, forming
bonds 1-2 and 4-5. -/
def insRxn : Reaction := ⟨"INSERTION", ⟨[[1, 2], [4, 5]], [[2, 3]]⟩, []⟩

/-- A trivial collaborator record for concrete evaluations that do not
depend on collaborator behavior. -/
def trivialCollab : Collab :=
  ⟨fun _ => [], id, fun g _ _ => (g, []), fun r _ => r, fun _ => [[0, 1, 2, 3, 4]],
   fun _ _ _ => [], fun _ _ _ => [], fun _ _ _ => 0, fun _ => [],
   fun _ _ => (⟨0⟩, []), fun _ _ v k => (v, k), fun g _ => g,
   fun _ _ => ⟨[], [], []⟩⟩

/-- A collaborator record whose z-matrix builder distinguishes whether an
explicit starting order was supplied: row keys [111] without one, [222]
with one. -/
def probeCollab : Collab :=
  ⟨fun _ => [], id, fun g _ _ => (g, []), fun r _ => r, fun _ => [[0, 1, 2, 3, 4]],
   fun _ _ _ => [], fun _ _ _ => [], fun _ _ _ => 0, fun _ => [],
   fun _ k => match k with
     | none => (⟨0⟩, [111])
     | some _ => (⟨1⟩, [222]),
   fun _ _ v k => (v, k), fun g _ => g,
   fun _ _ => ⟨[], [], []⟩⟩

/-- Decidable equality for `Except` results, used to evaluate the embedded
code on concrete inputs. -/
instance (priority := low) {ε α : Type} [DecidableEq ε] [DecidableEq α] :
    DecidableEq (Except ε α) := fun x y =>
  match x, y with
  | .ok a, .ok b =>
    if h : a = b then .isTrue (by rw [h])
    else .isFalse (fun hh => h (Except.ok.inj hh))
  | .error a, .error b =>
    if h : a = b then .isTrue (by rw [h])
    else .isFalse (fun hh => h (Except.error.inj hh))
  | .ok _, .error _ => .isFalse (fun hh => Except.noConfusion hh)
  | .error _, .ok _ => .isFalse (fun hh => Except.noConfusion hh)

/-- Unfolding lemma: binding a success. -/
theorem ok_bind {ε α β : Type} (a : α) (f : α → Except ε β) :
    (Except.ok a : Except ε α) >>= f = f a := rfl

/-- Unfolding lemma: binding a failure. -/
theorem error_bind {ε α β : Type} (e : ε) (f : α → Except ε β) :
    (Except.error e : Except ε α) >>= f = Except.error e := rfl

/-- Unfolding lemma: binding a pure value. -/
theorem pure_bind_except {ε α β : Type} (a : α) (f : α → Except ε β) :
    (pure a : Except ε α) >>= f = f a := rfl

/-- A pure value is a success. -/
theorem pure_eq_ok {ε α : Type} (a : α) :
    (pure a : Except ε α) = Except.ok a := rfl

/-- Mapping over a success. -/
theorem map_ok {ε α β : Type} (f : α → β) (a : α) :
    Except.map f (Except.ok a : Except ε α) = Except.ok (f a) := rfl

/-- Mapping over a failure. -/
theorem map_error {ε α β : Type} (f : α → β) (e : ε) :
    Except.map f (Except.error e : Except ε α) = Except.error e := rfl

/-- An addition reaction with forming bond 0-1 and breaking bond 1-2. -/
def addRxn : Reaction := ⟨"ADDITION", ⟨[[0, 1]], [[1, 2]]⟩, []⟩

/-- A reaction with the unsupported class tag of the spec scenario. -/
def photoRxn : Reaction := ⟨"PHOTOLYSIS", ⟨[[0, 1]], [[1, 2]]⟩, []⟩

/-- Whether a fallible computation succeeded (outer constructor only). -/
def exceptIsOk {e a : Type} : Except e a → Bool
  | .ok _ => true
  | .error _ => false

/-- Whether a grid value is the two-dimensional (elimination) variant. -/
def gridIsTwo : Grid → Bool
  | .one _ => false
  | .two _ _ => true

/-- The grid has constant spacing `d` between consecutive entries. -/
def equallySpaced (g : List ℚ) (d : ℚ) : Prop :=
  ∀ i : ℕ, ∀ x y : ℚ, g[i]? = some x → g[i + 1]? = some y → y - x = d

/-- Consecutive differences along the list, starting from value `v`, are
bounded below by `d` and non-decreasing. -/
def diffsMono : ℚ → ℚ → List ℚ → Prop
  | _, _, [] => True
  | d, v, x :: xs => d ≤ x - v ∧ diffsMono (x - v) x xs

/-- The list's consecutive step sizes are nonnegative and non-decreasing. -/
def stepsNondecreasing : List ℚ → Prop
  | [] => True
  | v :: t => diffsMono 0 v t

/-- Finite geometric sum `1 + g + ... + g^(n-1)` in recursive form. -/
def geomSumQ (g : ℚ) : ℕ → ℚ
  | 0 => 0
  | n + 1 => 1 + g * geomSumQ g n


/- ---------------------------------------------------------------------
Generic lemmas about the numeric helpers
--------------------------------------------------------------------- -/

/-- Length of a linspace grid. -/
theorem linspace_length (a b : ℚ) (n : ℕ) : (linspace a b n).length = n := by
  simp [linspace]

/-- Entry of a linspace grid. -/
theorem linspace_getElem? (a b : ℚ) {n i : ℕ} (h : i < n) :
    (linspace a b n)[i]? = some (a + (b - a) * (i : ℚ) / ((n - 1 : ℕ) : ℚ)) := by
  unfold linspace
  rw [List.getElem?_map, List.getElem?_range h]
  rfl

/-- A nonempty linspace grid starts at its left endpoint. -/
theorem linspace_head? (a b : ℚ) {n : ℕ} (h : 0 < n) :
    (linspace a b n).head? = some a := by
  have h0 := linspace_getElem? a b h
  have hne : linspace a b n ≠ [] := by
    intro hc
    rw [hc] at h0
    exact Option.noConfusion h0
  rw [List.head?_eq_getElem? ] at *
  rw [h0]
  norm_num

/-- A linspace grid with at least two points ends at its right endpoint. -/
theorem linspace_getLast? (a b : ℚ) {n : ℕ} (h : 2 ≤ n) :
    (linspace a b n).getLast? = some b := by
  have hlt : n - 1 < n := by omega
  have hg := linspace_getElem? a b hlt
  rw [List.getLast?_eq_getElem?, linspace_length, hg]
  have hnz : ((n - 1 : ℕ) : ℚ) ≠ 0 := by
    have h1 : n - 1 ≠ 0 := by omega
    exact_mod_cast h1
  rw [mul_div_assoc, div_self hnz]
  ring_nf

/-- A linspace grid is equally spaced with step `(b - a) / (n - 1)`. -/
theorem linspace_equallySpaced (a b : ℚ) (n : ℕ) :
    equallySpaced (linspace a b n) ((b - a) / ((n - 1 : ℕ) : ℚ)) := by
  intro i x y hx hy
  have hi1 : i + 1 < n := by
    by_contra hc
    push_neg at hc
    have hnone : (linspace a b n)[i + 1]? = none := by
      apply List.getElem?_eq_none
      rw [linspace_length]
      exact hc
    rw [hnone] at hy
    exact Option.noConfusion hy
  have hi : i < n := Nat.lt_of_succ_lt hi1
  rw [linspace_getElem? a b hi] at hx
  rw [linspace_getElem? a b hi1] at hy
  have hx' := Option.some.inj hx
  have hy' := Option.some.inj hy
  subst hx'
  subst hy'
  push_cast
  ring

/-- Weakening the lower bound preserves `diffsMono`. -/
theorem diffsMono_of_le {l : List ℚ} {v d d' : ℚ} (h : d' ≤ d) :
    diffsMono d v l → diffsMono d' v l := by
  cases l with
  | nil => intro _; trivial
  | cons x xs =>
    intro hm
    exact ⟨le_trans h hm.1, hm.2⟩

/-- The geometric-progression loop produces non-decreasing steps when the
growth factor is at least one and the step is nonnegative. -/
theorem geomProgAux_diffsMono (rmax g : ℚ) (hg : 1 ≤ g) :
    ∀ (n : ℕ) (s r : ℚ), 0 ≤ s → diffsMono s r (geomProgAux rmax g s r n) := by
  intro n
  induction n with
  | zero =>
    intro s r _
    trivial
  | succ n ih =>
    intro s r hs
    rw [geomProgAux]
    by_cases hbr : r + s = rmax
    · simp only [hbr, if_pos rfl]
      trivial
    · simp only [if_neg hbr]
      refine ⟨by rw [add_sub_cancel_left], ?_⟩
      rw [add_sub_cancel_left]
      have hsg : 0 ≤ s * g := mul_nonneg hs (le_trans zero_le_one hg)
      have h2 := ih (s * g) (r + s) hsg
      exact diffsMono_of_le (le_mul_of_one_le_right hs hg) h2

/-- The geometric sum of a nonnegative ratio is nonnegative. -/
theorem geomSumQ_nonneg {g : ℚ} (hg : 0 ≤ g) (n : ℕ) : 0 ≤ geomSumQ g n := by
  induction n with
  | zero => exact le_refl 0
  | succ n ih =>
    rw [geomSumQ]
    nlinarith

/-- Every value produced by the geometric-progression loop is bounded by the
start plus the total step budget. -/
theorem geomProgAux_le (rmax g : ℚ) (hg : 1 ≤ g) :
    ∀ (n : ℕ) (s r : ℚ), 0 ≤ s →
      ∀ x ∈ geomProgAux rmax g s r n, x ≤ r + s * geomSumQ g n := by
  intro n
  induction n with
  | zero =>
    intro s r _ x hx
    simp [geomProgAux] at hx
  | succ n ih =>
    intro s r hs x hx
    rw [geomProgAux] at hx
    have hg0 : (0 : ℚ) ≤ g := le_trans zero_le_one hg
    by_cases hbr : r + s = rmax
    · simp only [hbr, if_pos rfl] at hx
      simp at hx
    · simp only [if_neg hbr, List.mem_cons] at hx
      have hgs1 : (1 : ℚ) ≤ geomSumQ g (n + 1) := by
        rw [geomSumQ]
        nlinarith [geomSumQ_nonneg hg0 n]
      rcases hx with rfl | hx
      · nlinarith
      · have hb := ih (s * g) (r + s) (mul_nonneg hs hg0) x hx
        have heq : (r + s) + (s * g) * geomSumQ g n = r + s * geomSumQ g (n + 1) := by
          rw [geomSumQ]
          ring
        linarith [hb, le_of_eq heq]

/-- Every value of the geometric progression is bounded by `rmin` plus the
total step budget. -/
theorem geometric_progression_le (rmin rmax : ℚ) (n : ℕ) (g s : ℚ)
    (hg : 1 ≤ g) (hs : 0 ≤ s) :
    ∀ x ∈ geometric_progression rmin rmax n g s,
      x ≤ rmin + s * geomSumQ g n := by
  intro x hx
  rw [geometric_progression, List.mem_cons] at hx
  have hg0 : (0 : ℚ) ≤ g := le_trans zero_le_one hg
  rcases hx with rfl | hx
  · nlinarith [geomSumQ_nonneg hg0 n]
  · exact geomProgAux_le rmax g hg n s rmin hs x hx

/- ---------------------------------------------------------------------
Claim theorems
--------------------------------------------------------------------- -/

/-- Claim C9: for every reaction whose TS graph does not contain exactly one
forming bond and exactly one breaking bond, each single-bond-arity
role-derivation operation (hydrogen migration, ring-forming scission,
hydrogen abstraction, substitution) fails with `MalformedReactionGraph`. -/
theorem claim_c9_role_arity (c : Collab) (rxn : Reaction)
    (h : ¬(rxn.forward_ts_graph.frm.length = 1 ∧
           rxn.forward_ts_graph.brk.length = 1)) :
    hydrogen_migration_atom_keys c rxn = .error .malformedReactionGraph
    ∧ ring_forming_scission_atom_keys rxn = .error .malformedReactionGraph
    ∧ hydrogen_abstraction_atom_keys rxn = .error .malformedReactionGraph
    ∧ substitution_atom_keys rxn = .error .malformedReactionGraph := by
  match hf : rxn.forward_ts_graph.frm, hb : rxn.forward_ts_graph.brk with
  | [], _ | _ :: _ :: _, _ =>
    refine ⟨?_, ?_, ?_, ?_⟩ <;>
      simp [hydrogen_migration_atom_keys, ring_forming_scission_atom_keys,
        hydrogen_abstraction_atom_keys, substitution_atom_keys, hf, oneBond,
        error_bind]
  | [f], [] | [f], _ :: _ :: _ =>
    refine ⟨?_, ?_, ?_, ?_⟩ <;>
      simp [hydrogen_migration_atom_keys, ring_forming_scission_atom_keys,
        hydrogen_abstraction_atom_keys, substitution_atom_keys, hf, hb,
        oneBond, ok_bind, error_bind]
  | [f], [b] =>
    exact absurd ⟨by rw [hf]; rfl, by rw [hb]; rfl⟩ h

/-- Claim C9 witness: a reaction with no forming bond fails in all four
role-derivation operations. -/
theorem claim_c9_role_arity_witness :
    hydrogen_migration_atom_keys trivialCollab ⟨"X", ⟨[], []⟩, []⟩ =
      .error .malformedReactionGraph
    ∧ substitution_atom_keys ⟨"X", ⟨[], []⟩, []⟩ =
      .error .malformedReactionGraph := by
  have h := claim_c9_role_arity trivialCollab ⟨"X", ⟨[], []⟩, []⟩ (by decide)
  exact ⟨h.1, h.2.2.2⟩

/-- Claim C8: for an insertion reaction with two forming bonds, the primary
forming bond returned first is the one that does not intersect the breaking
bond when exactly one of the two does; when both or neither intersect (for
forming bonds distinct from the breaking bond, intersection sizes are then
equal), the canonical ordering over sorted atom-key tuples is returned. -/
theorem claim_c8_insertion_primary_bond (rxn : Reaction) (b f g : BondKey)
    (hcls : rxn.class_ = "INSERTION")
    (hbrk : rxn.forward_ts_graph.brk = [b])
    (hfrm : rxn.forward_ts_graph.frm = [f, g]) :
    (linter f b = [] → linter g b ≠ [] →
        insertion_forming_bond_keys rxn = .ok [f, g])
    ∧ (linter f b ≠ [] → linter g b = [] →
        insertion_forming_bond_keys rxn = .ok [g, f])
    ∧ ((linter f b).length = (linter g b).length →
        insertion_forming_bond_keys rxn =
          .ok (if lexLe (lsort f) (lsort g) then [f, g] else [g, f])) := by
  have hsort : ∀ le : BondKey → BondKey → Bool, ∀ u v : BondKey,
      stableSortBy le [u, v] = if le u v then [u, v] else [v, u] := by
    intro le u v
    simp [stableSortBy, stableInsert]
  have heval : insertion_forming_bond_keys rxn =
      .ok (stableSortBy
        (fun x y => decide ((linter x b).length ≤ (linter y b).length))
        (stableSortBy (fun x y => lexLe (lsort x) (lsort y)) [f, g])) := by
    simp [insertion_forming_bond_keys, hcls, hbrk, hfrm, oneBond, ok_bind,
      pure_bind_except, pure_eq_ok]
  rw [hsort] at heval
  refine ⟨?_, ?_, ?_⟩
  · intro hf0 hg0
    have hglen : 0 < (linter g b).length := List.length_pos.mpr hg0
    by_cases hle : lexLe (lsort f) (lsort g)
    · rw [if_pos hle, hsort] at heval
      have hd : decide ((linter f b).length ≤ (linter g b).length) = true := by
        rw [hf0]
        simp
      rw [hd, if_pos rfl] at heval
      exact heval
    · rw [if_neg hle, hsort] at heval
      have hd : decide ((linter g b).length ≤ (linter f b).length) = false := by
        rw [hf0]
        simpa using hg0
      rw [hd] at heval
      simpa using heval
  · intro hf0 hg0
    have hflen : 0 < (linter f b).length := List.length_pos.mpr hf0
    by_cases hle : lexLe (lsort f) (lsort g)
    · rw [if_pos hle, hsort] at heval
      have hd : decide ((linter f b).length ≤ (linter g b).length) = false := by
        rw [hg0]
        simpa using hf0
      rw [hd] at heval
      simpa using heval
    · rw [if_neg hle, hsort] at heval
      have hd : decide ((linter g b).length ≤ (linter f b).length) = true := by
        rw [hg0]
        simp
      rw [hd, if_pos rfl] at heval
      exact heval
  · intro hlen
    by_cases hle : lexLe (lsort f) (lsort g)
    · rw [if_pos hle, hsort] at heval
      have hd : decide ((linter f b).length ≤ (linter g b).length) = true := by
        rw [hlen]
        simp
      rw [hd, if_pos rfl] at heval
      rw [if_pos hle]
      exact heval
    · rw [if_neg hle, hsort] at heval
      have hd : decide ((linter g b).length ≤ (linter f b).length) = true := by
        rw [hlen]
        simp
      rw [hd, if_pos rfl] at heval
      rw [if_neg hle]
      exact heval

/-- Claim C8 witness: the spec scenario with breaking bond 2-3 and forming
bonds 1-2 and 4-5 returns the non-intersecting bond 4-5 first. -/
theorem claim_c8_insertion_primary_bond_witness :
    insertion_forming_bond_keys insRxn = .ok [[4, 5], [1, 2]] := by
  have h := claim_c8_insertion_primary_bond insRxn [2, 3] [1, 2] [4, 5]
    (by decide) (by decide) (by decide)
  exact h.2.1 (by decide) (by decide)

/-- Claim C1: dispatch is total over the eight supported class tags (every
table lookup selects a per-class function), and on any other tag the
scan-coordinate, constraint, grid, scan-info and TS-z-matrix entry points
fail with `UnsupportedReactionClass` before invoking any per-class
computation (the error is independent of the collaborators, the length
table, the z-matrix and the geometry). -/
theorem claim_c1_dispatch_total :
    (∀ cls ∈ supportedClasses,
      (scan_coordinate_fn cls).isSome = true
      ∧ (constraint_coordinates_fn cls).isSome = true
      ∧ (scan_grid_fn cls).isSome = true
      ∧ (UPDATE_GUESS_DCT cls).isSome = true
      ∧ (ts_zmatrix_fn cls).isSome = true)
    ∧ (∀ (rxn : Reaction) (zma : ZMat) (c : Collab) (lenDct : LenDct)
        (geo : Geom), rxn.class_ ∉ supportedClasses →
      scan_coordinate rxn zma = .error .unsupportedReactionClass
      ∧ constraint_coordinates c rxn zma = .error .unsupportedReactionClass
      ∧ scan_grid lenDct rxn zma = .error .unsupportedReactionClass
      ∧ build_scan_info c lenDct rxn zma = .error .unsupportedReactionClass
      ∧ ts_zmatrix c rxn geo = .error .unsupportedReactionClass) := by
  constructor
  · intro cls hmem
    simp only [supportedClasses, List.mem_cons, List.mem_singleton,
      List.not_mem_nil, or_false] at hmem
    rcases hmem with rfl | rfl | rfl | rfl | rfl | rfl | rfl | rfl <;> decide
  · intro rxn zma c lenDct geo hmem
    simp only [supportedClasses, List.mem_cons, List.mem_singleton,
      not_or] at hmem
    obtain ⟨h1, h2, h3, h4, h5, h6, h7, h8, -⟩ := hmem
    have hsc : scan_coordinate_fn rxn.class_ = none := by
      simp [scan_coordinate_fn, h1, h2, h3, h4, h5, h6, h7, h8]
    have hcc : constraint_coordinates_fn rxn.class_ = none := by
      simp [constraint_coordinates_fn, h1, h2, h3, h4, h5, h6, h7, h8]
    have hsg : scan_grid_fn rxn.class_ = none := by
      simp [scan_grid_fn, h1, h2, h3, h4, h5, h6, h7, h8]
    have htz : ts_zmatrix_fn rxn.class_ = none := by
      simp [ts_zmatrix_fn, h1, h2, h3, h4, h5, h6, h7, h8]
    have hc1 : scan_coordinate rxn zma = .error .unsupportedReactionClass := by
      rw [scan_coordinate, hsc]
    refine ⟨hc1, ?_, ?_, ?_, ?_⟩
    · rw [constraint_coordinates, hcc]
    · rw [scan_grid, hsg]
    · rw [build_scan_info, hc1]
      rfl
    · rw [ts_zmatrix, htz]

/-- Claim C1 witness: the tag "PHOTOLYSIS" is unsupported and every entry
point rejects it, while the tag "ADDITION" is dispatched. -/
theorem claim_c1_dispatch_total_witness :
    ("PHOTOLYSIS" ∉ supportedClasses)
    ∧ scan_coordinate photoRxn exZma = .error .unsupportedReactionClass
    ∧ build_scan_info trivialCollab [] photoRxn exZma =
        .error .unsupportedReactionClass
    ∧ ts_zmatrix trivialCollab photoRxn ⟨0⟩ = .error .unsupportedReactionClass
    ∧ ("ADDITION" ∈ supportedClasses)
    ∧ (ts_zmatrix_fn "ADDITION").isSome = true := by
  have hnot : ("PHOTOLYSIS" : String) ∉ supportedClasses := by decide
  have h := claim_c1_dispatch_total.2 photoRxn exZma trivialCollab [] ⟨0⟩ hnot
  have hsup := claim_c1_dispatch_total.1 "ADDITION" (by decide)
  exact ⟨hnot, h.1, h.2.2.2.1, h.2.2.2.2, by decide, hsup.2.2.2.2⟩

/-- Claim C3, amended: when the scan coordinate resolves but its bond length
is absent from the reference table, seven of the eight classes recover
locally with their default range and return a grid; hydrogen migration has
no default branch and surfaces a type error (adding the missing length to a
number). -/
theorem claim_c3_default_recovery (lenDct : LenDct) (rxn : Reaction)
    (zma : ZMat) (name : String)
    (hscan : scan_coordinate rxn zma = .ok name)
    (hnone : ts_bnd_len lenDct zma name = .ok none) :
    (rxn.class_ = "BETA_SCISSION" → scan_grid lenDct rxn zma =
      .ok (Grid.one (linspace (1.4 * ANG2BOHR) (2.0 * ANG2BOHR) 14)))
    ∧ (rxn.class_ = "RING_FORM_SCISSION" → scan_grid lenDct rxn zma =
      .ok (Grid.one
        (linspace ((1.54 + 0.1) * ANG2BOHR) ((1.54 + 0.7) * ANG2BOHR) 7)))
    ∧ (rxn.class_ = "ELIMINATION" → scan_grid lenDct rxn zma =
      .ok (Grid.two
        ((linspace ((1.54 + 0.2) * ANG2BOHR) ((1.54 + 1.4) * ANG2BOHR) 8).map
          (· * ANG2BOHR))
        ((linspace ((0.74 + 0.2) * ANG2BOHR) ((0.74 + 0.8) * ANG2BOHR) 4).map
          (· * ANG2BOHR))))
    ∧ (rxn.class_ = "HYDROGEN_ABSTRACTION" → scan_grid lenDct rxn zma =
      .ok (Grid.one (linspace (0.7 * ANG2BOHR) (2.2 * ANG2BOHR) 8)))
    ∧ (rxn.class_ = "ADDITION" → scan_grid lenDct rxn zma =
      .ok (Grid.one
        (geometric_progression (1.6 * ANG2BOHR) (2.8 * ANG2BOHR) 14 1.1 0.05)))
    ∧ (rxn.class_ = "INSERTION" → scan_grid lenDct rxn zma =
      .ok (Grid.one (linspace (1.4 * ANG2BOHR) (2.4 * ANG2BOHR) 16)))
    ∧ (rxn.class_ = "SUBSTITUTION" → scan_grid lenDct rxn zma =
      .ok (Grid.one (linspace (0.7 * ANG2BOHR) (2.4 * ANG2BOHR) 14)))
    ∧ (rxn.class_ = "HYDROGEN_MIGRATION" →
      scan_grid lenDct rxn zma = .error .typeError) := by
  refine ⟨?_, ?_, ?_, ?_, ?_, ?_, ?_, ?_⟩ <;> intro hcls <;>
    simp only [scan_coordinate] at hscan <;> rw [hcls] at hscan <;>
    unfold scan_grid <;> rw [hcls]
  · have hs : beta_scission_scan_coordinate rxn zma = Except.ok name := hscan
    show Except.map Grid.one (beta_scission_grid lenDct rxn zma) = _
    unfold beta_scission_grid
    rw [hs, ok_bind, hnone, ok_bind]
    rfl
  · have hs : ring_forming_scission_scan_coordinate rxn zma = Except.ok name :=
      hscan
    show Except.map Grid.one (ring_forming_scission_grid lenDct rxn zma) = _
    unfold ring_forming_scission_grid
    rw [hs, ok_bind, hnone, ok_bind]
    rfl
  · have hs : elimination_scan_coordinate rxn zma = Except.ok name := hscan
    show Except.map (fun p => Grid.two p.1 p.2)
      (elimination_grid lenDct rxn zma) = _
    unfold elimination_grid
    rw [hs, ok_bind, hnone, ok_bind]
    rfl
  · have hs : hydrogen_abstraction_scan_coordinate rxn zma = Except.ok name :=
      hscan
    show Except.map Grid.one (hydrogen_abstraction_grid lenDct rxn zma) = _
    unfold hydrogen_abstraction_grid
    rw [hs, ok_bind, hnone, ok_bind]
    rfl
  · have hs : addition_scan_coordinate rxn zma = Except.ok name := hscan
    show Except.map Grid.one (addition_grid lenDct rxn zma) = _
    unfold addition_grid
    rw [hs, ok_bind, hnone, ok_bind]
    rfl
  · have hs : insertion_scan_coordinate rxn zma = Except.ok name := hscan
    show Except.map Grid.one (insertion_grid lenDct rxn zma) = _
    unfold insertion_grid
    rw [hs, ok_bind, hnone, ok_bind]
    rfl
  · have hs : substitution_scan_coordinate rxn zma = Except.ok name := hscan
    show Except.map Grid.one (substitution_grid lenDct rxn zma) = _
    unfold substitution_grid
    rw [hs, ok_bind, hnone, ok_bind]
    rfl
  · have hs : hydrogen_migration_scan_coordinate rxn zma = Except.ok name :=
      hscan
    show Except.map Grid.one (hydrogen_migration_grid lenDct rxn zma) = _
    unfold hydrogen_migration_grid
    rw [hs, ok_bind, hnone, ok_bind]
    rfl

/-- Claim C3 counterexample: a hydrogen migration reaction (one of the eight
supported classes) with an unresolved bond length surfaces an error instead
of recovering with a default grid. -/
theorem claim_c3_default_recovery_counterexample :
    ("HYDROGEN_MIGRATION" ∈ supportedClasses)
    ∧ scan_grid [] migRxn exZma = .error .typeError := by
  exact ⟨by decide, by decide⟩

/-- Claim C3 witness: beta scission with an unresolved bond length returns
its default grid, hydrogen migration errors. -/
theorem claim_c3_default_recovery_witness :
    scan_grid [] betaRxn exZma =
      .ok (Grid.one (linspace (1.4 * ANG2BOHR) (2.0 * ANG2BOHR) 14))
    ∧ scan_grid [] migRxn exZma = .error .typeError := by
  have h1 := claim_c3_default_recovery [] betaRxn exZma "R2"
    (by decide) (by decide)
  have h2 := claim_c3_default_recovery [] migRxn exZma "R1"
    (by decide) (by decide)
  exact ⟨h1.1 rfl, h2.2.2.2.2.2.2.2 rfl⟩

/-- Claim C4, amended: for a beta scission with no resolvable bond length,
the grid is 14 equally spaced points over the default range from 1.4 to 2.0
angstrom (in working units); the source substitutes a default range, not a
default bond of 1.4 angstrom fed through the 0.1 to 0.8 angstrom offsets. -/
theorem claim_c4_beta_default_grid (lenDct : LenDct) (rxn : Reaction)
    (zma : ZMat) (name : String)
    (hscan : beta_scission_scan_coordinate rxn zma = .ok name)
    (hnone : ts_bnd_len lenDct zma name = .ok none) :
    beta_scission_grid lenDct rxn zma =
      .ok (linspace (1.4 * ANG2BOHR) (2.0 * ANG2BOHR) 14)
    ∧ (linspace (1.4 * ANG2BOHR) (2.0 * ANG2BOHR) 14).length = 14
    ∧ (linspace (1.4 * ANG2BOHR) (2.0 * ANG2BOHR) 14).head? =
        some (1.4 * ANG2BOHR)
    ∧ (linspace (1.4 * ANG2BOHR) (2.0 * ANG2BOHR) 14).getLast? =
        some (2.0 * ANG2BOHR)
    ∧ equallySpaced (linspace (1.4 * ANG2BOHR) (2.0 * ANG2BOHR) 14)
        ((2.0 * ANG2BOHR - 1.4 * ANG2BOHR) / 13) := by
  refine ⟨?_, linspace_length _ _ _, linspace_head? _ _ (by norm_num),
    linspace_getLast? _ _ (by norm_num), ?_⟩
  · unfold beta_scission_grid
    rw [hscan, ok_bind, hnone, ok_bind]
    rfl
  · have h := linspace_equallySpaced (1.4 * ANG2BOHR) (2.0 * ANG2BOHR) 14
    have h13 : (((14 : ℕ) - 1 : ℕ) : ℚ) = 13 := by norm_num
    rw [h13] at h
    exact h

/-- Claim C4 counterexample: the unresolved-bond beta scission grid runs
from 1.4 to 2.0 angstrom, not from 1.5 (= 1.4 + 0.1) to 2.2 (= 1.4 + 0.8)
angstrom as the claim states. -/
theorem claim_c4_beta_default_grid_counterexample :
    (beta_scission_grid [] betaRxn exZma).toOption.bind List.head? =
      some (1.4 * ANG2BOHR)
    ∧ (1.4 * ANG2BOHR : ℚ) ≠ (1.4 + 0.1) * ANG2BOHR
    ∧ (beta_scission_grid [] betaRxn exZma).toOption.bind List.getLast? =
      some (2.0 * ANG2BOHR)
    ∧ (2.0 * ANG2BOHR : ℚ) ≠ (1.4 + 0.8) * ANG2BOHR := by
  have hg : beta_scission_grid [] betaRxn exZma =
      .ok (linspace (1.4 * ANG2BOHR) (2.0 * ANG2BOHR) 14) := by
    unfold beta_scission_grid
    rw [show beta_scission_scan_coordinate betaRxn exZma = .ok "R2" by decide,
      ok_bind, show ts_bnd_len [] exZma "R2" = .ok none by decide, ok_bind]
    rfl
  refine ⟨?_, by norm_num [ANG2BOHR], ?_, by norm_num [ANG2BOHR]⟩
  · rw [hg]
    show (linspace (1.4 * ANG2BOHR) (2.0 * ANG2BOHR) 14).head? = _
    exact linspace_head? _ _ (by norm_num)
  · rw [hg]
    show (linspace (1.4 * ANG2BOHR) (2.0 * ANG2BOHR) 14).getLast? = _
    exact linspace_getLast? _ _ (by norm_num)

/-- Claim C4 witness: the concrete beta scission reaction with an empty
length table produces the default grid. -/
theorem claim_c4_beta_default_grid_witness :
    beta_scission_grid [] betaRxn exZma =
      .ok (linspace (1.4 * ANG2BOHR) (2.0 * ANG2BOHR) 14) :=
  (claim_c4_beta_default_grid [] betaRxn exZma "R2"
    (by decide) (by decide)).1

/-- Claim C10: for a hydrogen migration whose bond length resolves, the grid
has at least 18 points (segment B always contributes exactly 18) and ends at
the resolved length plus 0.05 angstrom, also when segment A is empty. -/
theorem claim_c10_migration_resolved_grid (lenDct : LenDct) (rxn : Reaction)
    (zma : ZMat) (name : String) (l : ℚ) (g : List ℚ)
    (hscan : hydrogen_migration_scan_coordinate rxn zma = .ok name)
    (hsome : ts_bnd_len lenDct zma name = .ok (some l))
    (hg : hydrogen_migration_grid lenDct rxn zma = .ok g) :
    18 ≤ g.length ∧ g.getLast? = some (l + 0.05 * ANG2BOHR) := by
  have hsplit : ∃ g1 : List ℚ, hydrogen_migration_grid lenDct rxn zma =
      .ok (g1 ++ linspace (2.0 * ANG2BOHR) (l + 0.05 * ANG2BOHR) 18) := by
    unfold hydrogen_migration_grid
    rw [hscan, ok_bind, hsome, ok_bind]
    exact ⟨_, rfl⟩
  obtain ⟨g1, hval⟩ := hsplit
  rw [hval] at hg
  have hgeq := Except.ok.inj hg
  subst hgeq
  constructor
  · rw [List.length_append, linspace_length]
    omega
  · rw [List.getLast?_append_of_ne_nil]
    · exact linspace_getLast? _ _ (by norm_num)
    · intro hc
      have := congrArg List.length hc
      rw [linspace_length] at this
      simp at this

/-- Claim C10 witness: with the C-H pair resolving to 2.3 angstrom, the
migration grid ends at 2.3 + 0.05 angstrom. -/
theorem claim_c10_migration_resolved_grid_witness :
    (hydrogen_migration_grid lenCH migRxn exZma).toOption.bind List.getLast? =
      some (2.3 * ANG2BOHR + 0.05 * ANG2BOHR) := by
  have hok : exceptIsOk (hydrogen_migration_grid lenCH migRxn exZma) = true :=
    rfl
  cases hres : hydrogen_migration_grid lenCH migRxn exZma with
  | error e =>
    rw [hres] at hok
    exact absurd hok (by simp [exceptIsOk])
  | ok g =>
    have h := claim_c10_migration_resolved_grid lenCH migRxn exZma "R1"
      (2.3 * ANG2BOHR) g (by decide) rfl hres
    simp [Except.toOption, h.2]

/-- Evaluation of the hydrogen migration grid when the bond length resolves
to exactly 2.3 angstrom: segment A is the single point 2.3 angstrom
(point count equals the ceiling of (2.3 - 2.0)/0.3, which is one), segment B
runs from 2.0 angstrom to the resolved length plus 0.05 angstrom. -/
theorem hm_grid_at_resolved_23 (lenDct : LenDct) (rxn : Reaction) (zma : ZMat)
    (name : String)
    (hscan : hydrogen_migration_scan_coordinate rxn zma = .ok name)
    (hsome : ts_bnd_len lenDct zma name = .ok (some (2.3 * ANG2BOHR))) :
    hydrogen_migration_grid lenDct rxn zma =
      .ok ([2.3 * ANG2BOHR] ++
        linspace (2.0 * ANG2BOHR) (2.3 * ANG2BOHR + 0.05 * ANG2BOHR) 18) := by
  unfold hydrogen_migration_grid
  rw [hscan, ok_bind, hsome, ok_bind]
  show Except.ok
      ((if 2.0 * ANG2BOHR < 2.3 * ANG2BOHR then
          if (⌈(2.3 * ANG2BOHR - 2.0 * ANG2BOHR) / (0.3 * ANG2BOHR)⌉ < 1)
          then ([] : List ℚ)
          else linspace (2.3 * ANG2BOHR) (2.0 * ANG2BOHR)
            (⌈(2.3 * ANG2BOHR - 2.0 * ANG2BOHR) / (0.3 * ANG2BOHR)⌉).toNat
        else []) ++
        linspace (2.0 * ANG2BOHR) (2.3 * ANG2BOHR + 0.05 * ANG2BOHR) 18) = _
  have hlt : (2.0 * ANG2BOHR : ℚ) < 2.3 * ANG2BOHR := by norm_num [ANG2BOHR]
  have harg : ((2.3 * ANG2BOHR - 2.0 * ANG2BOHR) / (0.3 * ANG2BOHR) : ℚ) = 1 := by
    norm_num [ANG2BOHR]
  rw [if_pos hlt, harg, Int.ceil_one, if_neg (by norm_num : ¬((1 : ℤ) < 1))]
  have h1 : linspace (2.3 * ANG2BOHR) (2.0 * ANG2BOHR) (Int.toNat 1) =
      [2.3 * ANG2BOHR] := by
    show linspace _ _ 1 = _
    simp [linspace]
  rw [h1]

/-- Claim C5, amended: for a hydrogen migration whose forming bond length
resolves to 2.3 angstrom, the grid is segment A with the single point 2.3,
concatenated with segment B of 18 equal points from 2.0 up to 2.35
(the resolved length plus 0.05), giving 19 points whose first value is 2.3
and whose last value is 2.35 angstrom (in working units) - not 2.05. -/
theorem claim_c5_migration_23_grid (lenDct : LenDct) (rxn : Reaction)
    (zma : ZMat) (name : String)
    (hscan : hydrogen_migration_scan_coordinate rxn zma = .ok name)
    (hsome : ts_bnd_len lenDct zma name = .ok (some (2.3 * ANG2BOHR))) :
    hydrogen_migration_grid lenDct rxn zma =
      .ok ([2.3 * ANG2BOHR] ++
        linspace (2.0 * ANG2BOHR) (2.35 * ANG2BOHR) 18)
    ∧ ([2.3 * ANG2BOHR] ++
        linspace (2.0 * ANG2BOHR) (2.35 * ANG2BOHR) 18).length = 19
    ∧ ([2.3 * ANG2BOHR] ++
        linspace (2.0 * ANG2BOHR) (2.35 * ANG2BOHR) 18).head? =
        some (2.3 * ANG2BOHR)
    ∧ ([2.3 * ANG2BOHR] ++
        linspace (2.0 * ANG2BOHR) (2.35 * ANG2BOHR) 18).getLast? =
        some (2.35 * ANG2BOHR) := by
  have hval := hm_grid_at_resolved_23 lenDct rxn zma name hscan hsome
  have h235 : (2.3 * ANG2BOHR + 0.05 * ANG2BOHR : ℚ) = 2.35 * ANG2BOHR := by
    ring
  rw [h235] at hval
  refine ⟨hval, ?_, rfl, ?_⟩
  · rw [List.length_append, linspace_length]
    rfl
  · rw [List.getLast?_append_of_ne_nil]
    · exact linspace_getLast? _ _ (by norm_num)
    · intro hc
      have hlen := congrArg List.length hc
      rw [linspace_length] at hlen
      simp at hlen

/-- Claim C5 counterexample: the grid's last value is 2.35 angstrom (the
resolved forming length 2.3 plus 0.05), not 2.05 as the claim states. -/
theorem claim_c5_migration_23_grid_counterexample :
    (hydrogen_migration_grid lenCH migRxn exZma).toOption.bind List.getLast? =
      some (2.35 * ANG2BOHR)
    ∧ (2.35 * ANG2BOHR : ℚ) ≠ 2.05 * ANG2BOHR := by
  have hval := hm_grid_at_resolved_23 lenCH migRxn exZma "R1" (by decide) rfl
  constructor
  · rw [hval]
    show ([2.3 * ANG2BOHR] ++
      linspace (2.0 * ANG2BOHR) (2.3 * ANG2BOHR + 0.05 * ANG2BOHR) 18).getLast?
      = _
    rw [List.getLast?_append_of_ne_nil]
    · rw [linspace_getLast? _ _ (by norm_num)]
      exact congrArg some (by ring)
    · intro hc
      have hlen := congrArg List.length hc
      rw [linspace_length] at hlen
      simp at hlen
  · norm_num [ANG2BOHR]

/-- Claim C5 witness: the concrete migration reaction with the C-H pair
resolving to 2.3 angstrom produces exactly the 1 + 18 point grid. -/
theorem claim_c5_migration_23_grid_witness :
    hydrogen_migration_grid lenCH migRxn exZma =
      .ok ([2.3 * ANG2BOHR] ++
        linspace (2.0 * ANG2BOHR) (2.35 * ANG2BOHR) 18) :=
  (claim_c5_migration_23_grid lenCH migRxn exZma "R1" (by decide) rfl).1

/-- Claim C6, amended: the geometric-progression grid always has
nonnegative, non-decreasing step sizes; inside `addition_grid` (whose ranges
keep `rmax - rmin` at least 1.1 length units, above the total step budget of
fourteen 1.1-factor steps from 0.05) no value exceeds the branch's `rmax`.
In general a value may exceed `rmax`, because the loop stops early only when
a value hits `rmax` exactly (see the counterexample). -/
theorem claim_c6_addition_gp :
    (∀ (rmin rmax : ℚ) (n : ℕ) (g s : ℚ), 1 ≤ g → 0 ≤ s →
      stepsNondecreasing (geometric_progression rmin rmax n g s))
    ∧ (∀ (lenDct : LenDct) (rxn : Reaction) (zma : ZMat) (name : String)
        (fbl : Option ℚ) (grid : List ℚ),
        addition_scan_coordinate rxn zma = .ok name →
        ts_bnd_len lenDct zma name = .ok fbl →
        addition_grid lenDct rxn zma = .ok grid →
        ∀ x ∈ grid,
          x ≤ (match fbl with
            | some l => l + 1.2 * ANG2BOHR
            | none => 2.8 * ANG2BOHR)) := by
  constructor
  · intro rmin rmax n g s hg hs
    show diffsMono 0 rmin (geomProgAux rmax g s rmin n)
    exact diffsMono_of_le hs (geomProgAux_diffsMono rmax g hg n s rmin hs)
  · intro lenDct rxn zma name fbl grid hscan hlen hgrid x hx
    unfold addition_grid at hgrid
    rw [hscan, ok_bind, hlen, ok_bind] at hgrid
    have hsum : (0.05 : ℚ) * geomSumQ 1.1 14 ≤ 1.1 * ANG2BOHR := by
      norm_num [geomSumQ, ANG2BOHR]
    cases fbl with
    | some l =>
      have hge : grid = geometric_progression (l + 0.1 * ANG2BOHR)
          (l + 1.2 * ANG2BOHR) 14 1.1 0.05 := (Except.ok.inj hgrid).symm
      subst hge
      have hb := geometric_progression_le (l + 0.1 * ANG2BOHR)
        (l + 1.2 * ANG2BOHR) 14 1.1 0.05 (by norm_num) (by norm_num) x hx
      show x ≤ l + 1.2 * ANG2BOHR
      linarith
    | none =>
      have hge : grid = geometric_progression (1.6 * ANG2BOHR)
          (2.8 * ANG2BOHR) 14 1.1 0.05 := (Except.ok.inj hgrid).symm
      subst hge
      have hb := geometric_progression_le (1.6 * ANG2BOHR)
        (2.8 * ANG2BOHR) 14 1.1 0.05 (by norm_num) (by norm_num) x hx
      show x ≤ 2.8 * ANG2BOHR
      have hlast : (1.6 * ANG2BOHR : ℚ) + 1.1 * ANG2BOHR ≤ 2.8 * ANG2BOHR := by
        norm_num [ANG2BOHR]
      linarith

/-- Claim C6 counterexample: with the addition parameters (14 points, growth
1.1, initial step 0.05) and the narrow range 0 to 0.06, the progression
contains 0.105, which exceeds `rmax` - the loop only stops on exact
equality, so "never exceeds rmax" fails for general `rmin < rmax`. -/
theorem claim_c6_addition_gp_counterexample :
    ((0 : ℚ) < 0.06)
    ∧ (0.105 : ℚ) ∈ geometric_progression 0 0.06 14 1.1 0.05
    ∧ ¬((0.105 : ℚ) ≤ 0.06) := by
  refine ⟨by norm_num, ?_, by norm_num⟩
  norm_num [geometric_progression, geomProgAux]

/-- Claim C6 witness: the default addition progression has non-decreasing
steps, and its first value stays within the branch's upper bound. -/
theorem claim_c6_addition_gp_witness :
    stepsNondecreasing
      (geometric_progression (1.6 * ANG2BOHR) (2.8 * ANG2BOHR) 14 1.1 0.05)
    ∧ (1.6 * ANG2BOHR : ℚ) ≤ 2.8 * ANG2BOHR := by
  constructor
  · exact claim_c6_addition_gp.1 (1.6 * ANG2BOHR) (2.8 * ANG2BOHR) 14 1.1 0.05
      (by norm_num) (by norm_num)
  · have hgrid : addition_grid [] addRxn exZma =
        .ok (geometric_progression (1.6 * ANG2BOHR) (2.8 * ANG2BOHR)
          14 1.1 0.05) := by
      unfold addition_grid
      rw [show addition_scan_coordinate addRxn exZma = .ok "R1" by decide,
        ok_bind, show ts_bnd_len [] exZma "R1" = .ok none by decide, ok_bind]
      rfl
    have hmem : (1.6 * ANG2BOHR : ℚ) ∈
        geometric_progression (1.6 * ANG2BOHR) (2.8 * ANG2BOHR) 14 1.1 0.05 := by
      rw [geometric_progression]
      exact List.mem_cons_self _ _
    exact claim_c6_addition_gp.2 [] addRxn exZma "R1" none _
      (by decide) (by decide) hgrid _ hmem

/-- The grid returned by the dispatcher is two-dimensional exactly for the
elimination class. -/
theorem scan_grid_shape (lenDct : LenDct) (rxn : Reaction) (zma : ZMat)
    (gr : Grid) (h : scan_grid lenDct rxn zma = .ok gr) :
    (rxn.class_ = "ELIMINATION" → gridIsTwo gr = true)
    ∧ (rxn.class_ ≠ "ELIMINATION" → gridIsTwo gr = false) := by
  by_cases hb1 : rxn.class_ = "BETA_SCISSION"
  · unfold scan_grid at h
    rw [hb1] at h
    have h' : Except.map Grid.one (beta_scission_grid lenDct rxn zma) =
        .ok gr := h
    cases hg : beta_scission_grid lenDct rxn zma with
    | error e =>
      rw [hg, map_error] at h'
      exact absurd h' (by simp)
    | ok v =>
      rw [hg, map_ok] at h'
      rw [← Except.ok.inj h']
      exact ⟨fun hc => absurd (hb1.symm.trans hc) (by decide), fun _ => rfl⟩
  by_cases hb2 : rxn.class_ = "ADDITION"
  · unfold scan_grid at h
    rw [hb2] at h
    have h' : Except.map Grid.one (addition_grid lenDct rxn zma) = .ok gr := h
    cases hg : addition_grid lenDct rxn zma with
    | error e =>
      rw [hg, map_error] at h'
      exact absurd h' (by simp)
    | ok v =>
      rw [hg, map_ok] at h'
      rw [← Except.ok.inj h']
      exact ⟨fun hc => absurd (hb2.symm.trans hc) (by decide), fun _ => rfl⟩
  by_cases hb3 : rxn.class_ = "HYDROGEN_MIGRATION"
  · unfold scan_grid at h
    rw [hb3] at h
    have h' : Except.map Grid.one (hydrogen_migration_grid lenDct rxn zma) =
        .ok gr := h
    cases hg : hydrogen_migration_grid lenDct rxn zma with
    | error e =>
      rw [hg, map_error] at h'
      exact absurd h' (by simp)
    | ok v =>
      rw [hg, map_ok] at h'
      rw [← Except.ok.inj h']
      exact ⟨fun hc => absurd (hb3.symm.trans hc) (by decide), fun _ => rfl⟩
  by_cases hb4 : rxn.class_ = "ELIMINATION"
  · unfold scan_grid at h
    rw [hb4] at h
    have h' : Except.map (fun p => Grid.two p.1 p.2)
        (elimination_grid lenDct rxn zma) = .ok gr := h
    cases hg : elimination_grid lenDct rxn zma with
    | error e =>
      rw [hg, map_error] at h'
      exact absurd h' (by simp)
    | ok v =>
      rw [hg, map_ok] at h'
      rw [← Except.ok.inj h']
      exact ⟨fun _ => rfl, fun hne => absurd hb4 hne⟩
  by_cases hb5 : rxn.class_ = "RING_FORM_SCISSION"
  · unfold scan_grid at h
    rw [hb5] at h
    have h' : Except.map Grid.one (ring_forming_scission_grid lenDct rxn zma) =
        .ok gr := h
    cases hg : ring_forming_scission_grid lenDct rxn zma with
    | error e =>
      rw [hg, map_error] at h'
      exact absurd h' (by simp)
    | ok v =>
      rw [hg, map_ok] at h'
      rw [← Except.ok.inj h']
      exact ⟨fun hc => absurd (hb5.symm.trans hc) (by decide), fun _ => rfl⟩
  by_cases hb6 : rxn.class_ = "HYDROGEN_ABSTRACTION"
  · unfold scan_grid at h
    rw [hb6] at h
    have h' : Except.map Grid.one (hydrogen_abstraction_grid lenDct rxn zma) =
        .ok gr := h
    cases hg : hydrogen_abstraction_grid lenDct rxn zma with
    | error e =>
      rw [hg, map_error] at h'
      exact absurd h' (by simp)
    | ok v =>
      rw [hg, map_ok] at h'
      rw [← Except.ok.inj h']
      exact ⟨fun hc => absurd (hb6.symm.trans hc) (by decide), fun _ => rfl⟩
  by_cases hb7 : rxn.class_ = "SUBSTITUTION"
  · unfold scan_grid at h
    rw [hb7] at h
    have h' : Except.map Grid.one (substitution_grid lenDct rxn zma) =
        .ok gr := h
    cases hg : substitution_grid lenDct rxn zma with
    | error e =>
      rw [hg, map_error] at h'
      exact absurd h' (by simp)
    | ok v =>
      rw [hg, map_ok] at h'
      rw [← Except.ok.inj h']
      exact ⟨fun hc => absurd (hb7.symm.trans hc) (by decide), fun _ => rfl⟩
  by_cases hb8 : rxn.class_ = "INSERTION"
  · unfold scan_grid at h
    rw [hb8] at h
    have h' : Except.map Grid.one (insertion_grid lenDct rxn zma) = .ok gr := h
    cases hg : insertion_grid lenDct rxn zma with
    | error e =>
      rw [hg, map_error] at h'
      exact absurd h' (by simp)
    | ok v =>
      rw [hg, map_ok] at h'
      rw [← Except.ok.inj h']
      exact ⟨fun hc => absurd (hb8.symm.trans hc) (by decide), fun _ => rfl⟩
  · have hnone : scan_grid_fn rxn.class_ = none := by
      simp [scan_grid_fn, hb1, hb2, hb3, hb4, hb5, hb6, hb7, hb8]
    rw [scan_grid, hnone] at h
    exact absurd h (by simp)

/-- Claim C2, amended: `build_scan_info` returns exactly one scan coordinate
name for every supported class, elimination included (the source wraps the
single per-class name in a one-element tuple), and the grids component has
exactly one entry, which is a pair of value sequences (a 2-D grid) for
elimination and a single sequence for every other class. -/
theorem claim_c2_scan_info_arity (c : Collab) (lenDct : LenDct)
    (rxn : Reaction) (zma : ZMat)
    (r : List String × List (String × ℚ) × List Grid × Bool)
    (h : build_scan_info c lenDct rxn zma = .ok r) :
    r.1.length = 1
    ∧ r.2.2.1.length = 1
    ∧ (rxn.class_ = "ELIMINATION" → ∀ gr ∈ r.2.2.1, gridIsTwo gr = true)
    ∧ (rxn.class_ ≠ "ELIMINATION" → ∀ gr ∈ r.2.2.1, gridIsTwo gr = false) := by
  unfold build_scan_info at h
  cases h1 : scan_coordinate rxn zma with
  | error e =>
    rw [h1, error_bind] at h
    exact absurd h (by simp)
  | ok name =>
    rw [h1, ok_bind] at h
    cases h2 : constraint_coordinates c rxn zma with
    | error e =>
      rw [h2, error_bind] at h
      exact absurd h (by simp)
    | ok cnames =>
      rw [h2, ok_bind] at h
      cases h3 : scan_grid lenDct rxn zma with
      | error e =>
        rw [h3, error_bind] at h
        exact absurd h (by simp)
      | ok gr =>
        rw [h3, ok_bind] at h
        cases h4 : UPDATE_GUESS_DCT rxn.class_ with
        | none =>
          rw [h4] at h
          exact absurd h (by simp)
        | some b =>
          rw [h4] at h
          have h' : (Except.ok
              ([name], zmat_constraint_dct zma cnames, [gr], b) :
              Except Err _) = .ok r := h
          rw [← Except.ok.inj h']
          have hshape := scan_grid_shape lenDct rxn zma gr h3
          refine ⟨rfl, rfl, ?_, ?_⟩
          · intro hc gr' hmem
            rw [List.mem_singleton] at hmem
            rw [hmem]
            exact hshape.1 hc
          · intro hc gr' hmem
            rw [List.mem_singleton] at hmem
            rw [hmem]
            exact hshape.2 hc

/-- Claim C2 counterexample: for a concrete elimination reaction
`build_scan_info` returns one scan coordinate name, not two. -/
theorem claim_c2_scan_info_arity_counterexample :
    (build_scan_info trivialCollab [] elimRxn exZma).toOption.map
      (fun r => r.1.length) = some 1
    ∧ (1 : ℕ) ≠ 2 := ⟨by decide, by decide⟩

/-- Claim C2 witness: the concrete elimination reaction yields one scan name
and one grid entry. -/
theorem claim_c2_scan_info_arity_witness :
    (build_scan_info trivialCollab [] elimRxn exZma).toOption.map
      (fun r => (r.1.length, r.2.2.1.length)) = some (1, 1) := by
  have hok : exceptIsOk (build_scan_info trivialCollab [] elimRxn exZma) =
      true := rfl
  cases hres : build_scan_info trivialCollab [] elimRxn exZma with
  | error e =>
    rw [hres] at hok
    exact absurd hok (by simp [exceptIsOk])
  | ok r =>
    have h := claim_c2_scan_info_arity trivialCollab [] elimRxn exZma r hres
    simp [Except.toOption, h.1, h.2.1]

/-- Claim C7: for the ring-forming scission class, the source computes the
reordered forming-ring cycle - transferring atom to the front with the
attacking atom last, then the second-to-last key rotated to the front,
giving (atom, attacking, transferring, ...) - but then calls the
z-matrix-from-graph collaborator without any starting order, so the
reordered cycle never reaches it: with a collaborator whose z-matrix row
keys are [111] when no starting order is supplied and [222] when one is,
the dispatcher returns [111]. -/
theorem claim_c7_ring_order_unused :
    cycle_ring_atom_key_to_front [0, 1, 2, 3, 4] 4 (some 0) =
      .ok [4, 3, 2, 1, 0]
    ∧ cycle_ring_atom_key_to_front [4, 3, 2, 1, 0] 1 none =
      .ok [1, 0, 4, 3, 2]
    ∧ (ts_zmatrix probeCollab rfsRxn ⟨0⟩).toOption.map (fun t => t.2.1) =
      some [111]
    ∧ (probeCollab.vmatrix rfsRxn.forward_ts_graph (some [1, 0, 4, 3, 2])).2 =
      [222]
    ∧ ([111] : List ℕ) ≠ [222] :=
  ⟨by decide, by decide, by decide, by decide, by decide⟩

end Autochem
